import Mathlib

/-!
Verification of the resilient fetch-and-normalize core of a Korean
real-estate open-data MCP server.  The Python sources embedded here are
`real_estate/mcp_server/_helpers.py` (circuit breaker, retrying fetchers,
summary builders), `real_estate/mcp_server/server.py` (per-endpoint XML
record parsers, date assembly) and `real_estate/cache_manager.py`
(cache keying and the cached fetch wrappers).

Conventions of the shallow embedding:

* Python strings are Lean `String`s; helpers that need structural
  recursion work on the underlying `List Char`.
* Wall-clock instants are integers (`Int`); only differences of instants
  are ever compared in the source, so any linearly ordered time works.
* Python numbers: `int` is `Int`; `float` values produced by the parsers
  are modelled as exact rationals (`Rat`), and `int(x)` is truncation
  toward zero.
* The HTTP layer is represented by an attempt oracle `Nat → Attempt`
  giving the outcome (body, timeout, status error, connection error,
  decode error) of each numbered network attempt of one logical call.
-/

namespace RealEstate

/-- Python `str.strip()` whitespace test, for the ASCII whitespace
characters (the default strip set restricted to ASCII; the XML fields
handled by the parsers contain only ASCII whitespace). -/
def pyIsSpace (c : Char) : Bool :=
  c = ' ' || c = '\t' || c = '\n' || c = '\r' || c = '\x0b' || c = '\x0c'

/-- Python `str.strip()` on the character list: drop leading and trailing
whitespace. -/
def pyStripData (l : List Char) : List Char :=
  ((l.dropWhile pyIsSpace).reverse.dropWhile pyIsSpace).reverse

/-- Python `str.strip()`. -/
def pyStrip (s : String) : String :=
  String.mk (pyStripData s.data)

/-- Value of a list of decimal digit characters. -/
def digitsVal (l : List Char) : Nat :=
  l.foldl (fun a c => a * 10 + (c.toNat - '0'.toNat)) 0

/-- Python `int(s)` on a character list: optional surrounding whitespace,
optional sign, then a non-empty run of decimal digits; `none` models the
`ValueError` raised on any other shape.  (Underscore digit grouping,
which never occurs in the API payloads, is not modelled.) -/
def pyIntOfData (l : List Char) : Option Int :=
  let t := pyStripData l
  let sg : Int := match t with
    | '-' :: _ => -1
    | _ => 1
  let ds : List Char := match t with
    | '-' :: rest => rest
    | '+' :: rest => rest
    | _ => t
  if ds.length ≠ 0 && ds.all Char.isDigit then some (sg * digitsVal ds) else none

/-- Python `int(s)` returning `none` on `ValueError`. -/
def pyInt (s : String) : Option Int :=
  pyIntOfData s.data

/-- Split a character list at the first dot, if any. -/
def splitDot : List Char → List Char × Option (List Char)
  | [] => ([], none)
  | c :: cs =>
    if c = '.' then ([], some cs)
    else
      let p := splitDot cs
      (c :: p.1, p.2)

/-- Python `float(s)` for the plain decimal shapes `[±]ddd`, `[±]ddd.ddd`,
`[±].ddd`, `[±]ddd.` that the API payloads use, as an exact rational;
`none` models `ValueError`.  (Exponent, infinity and nan spellings never
occur in the payloads and are not modelled.) -/
def pyFloatOfData (l : List Char) : Option ℚ :=
  let t := pyStripData l
  let sg : ℚ := match t with
    | '-' :: _ => -1
    | _ => 1
  let ds : List Char := match t with
    | '-' :: rest => rest
    | '+' :: rest => rest
    | _ => t
  let p := splitDot ds
  let ip := p.1
  let fp := (p.2).getD []
  if (ip.length + fp.length ≠ 0) && ip.all Char.isDigit && fp.all Char.isDigit then
    some (sg * ((digitsVal ip : ℚ) + (digitsVal fp : ℚ) / ((10 : ℚ) ^ fp.length)))
  else none

/-- Python `float(s)` returning `none` on `ValueError`. -/
def pyFloat (s : String) : Option ℚ :=
  pyFloatOfData s.data

/-- Python `str.zfill(width)` on a character list: left-pad with zeros up
to `width`, keeping a leading sign in front of the padding. -/
def zfillData (width : Nat) (l : List Char) : List Char :=
  match l with
  | '+' :: rest =>
    if l.length < width then '+' :: (List.replicate (width - l.length) '0' ++ rest) else l
  | '-' :: rest =>
    if l.length < width then '-' :: (List.replicate (width - l.length) '0' ++ rest) else l
  | _ =>
    if l.length < width then List.replicate (width - l.length) '0' ++ l else l

/-- Python `str.zfill(width)`. -/
def zfill (s : String) (width : Nat) : String :=
  String.mk (zfillData width s.data)

/-! ### Shallow XML element model

The fetchers hand the parsers an XML text which `defusedxml` turns into
an element tree; the parsers only ever use `findtext` on item children,
`findtext(".//resultCode")` and `findall(".//item")`.  The embedding
starts from that element-tree level. -/

/-- A parsed XML `<item>` element: its child elements as an ordered
association list from tag name to text content.  `findtext` returns the
text of the first child with the given tag. -/
structure XmlItem where
  fields : List (String × String)
deriving DecidableEq

/-- `item.findtext(tag)`: text of the first child with tag `tag`. -/
def findtext (it : XmlItem) (tag : String) : Option String :=
  (it.fields.find? (fun p => p.1 == tag)).map (fun p => p.2)

/-- `_txt(item, tag)`: `(item.findtext(tag) or "").strip()`. -/
def _txt (it : XmlItem) (tag : String) : String :=
  pyStrip ((findtext it tag).getD "")

/-- A parsed MOLIT XML response: the text of the first `resultCode`
element if any, and the list of `<item>` elements. -/
structure XmlDoc where
  resultCode : Option String
  items : List XmlItem
deriving DecidableEq

/-- `_parse_amount(raw)`: strip thousands separators, then Python
`int(...)`; `None` on failure. -/
def _parse_amount (raw : String) : Option Int :=
  pyIntOfData (raw.data.filter (fun c => c ≠ ','))

/-- `_parse_float(raw)`: Python `float(raw)`, defaulting to `0.0` on
`ValueError`. -/
def _parse_float (raw : String) : ℚ :=
  (pyFloat raw).getD 0

/-- `_parse_int(raw)`: Python `int(raw)`, defaulting to `0` on
`ValueError`. -/
def _parse_int (raw : String) : Int :=
  (pyInt raw).getD 0

/-- `_make_date(item)`: assemble `YYYY-MM-DD` from the `dealYear`,
`dealMonth`, `dealDay` children, zero-padding month and day to two
digits; the empty string when the year text is empty. -/
def _make_date (it : XmlItem) : String :=
  let year := _txt it "dealYear"
  let month := zfill (_txt it "dealMonth") 2
  let day := zfill (_txt it "dealDay") 2
  if year = "" then "" else year ++ "-" ++ month ++ "-" ++ day

/-! ### Record parsers

Each parser returns `(records, error_code?)`.  A record is a Python dict
from field name to scalar; the embedding keeps the dict literally as an
ordered association list. -/

/-- A scalar value in a normalized record dict. -/
inductive PyVal where
  | str (s : String)
  | int (n : Int)
  | rat (q : ℚ)
deriving DecidableEq

/-- A normalized record: the Python dict as an ordered association list. -/
abbrev PyDict := List (String × PyVal)

/-- Item loop of `_parse_apt_trades`. -/
def _parse_apt_trades_loop : List XmlItem → List PyDict
  | [] => []
  | item :: rest =>
    if _txt item "cdealType" = "O" then _parse_apt_trades_loop rest
    else
      match _parse_amount (_txt item "dealAmount") with
      | none => _parse_apt_trades_loop rest
      | some price =>
        [("apt_name", PyVal.str (_txt item "aptNm")),
         ("dong", PyVal.str (_txt item "umdNm")),
         ("area_sqm", PyVal.rat (_parse_float (_txt item "excluUseAr"))),
         ("floor", PyVal.int (_parse_int (_txt item "floor"))),
         ("price_10k", PyVal.int price),
         ("trade_date", PyVal.str (_make_date item)),
         ("build_year", PyVal.int (_parse_int (_txt item "buildYear"))),
         ("deal_type", PyVal.str (_txt item "dealingGbn"))] :: _parse_apt_trades_loop rest

/-- `_parse_apt_trades`: apartment sale records. -/
def _parse_apt_trades (doc : XmlDoc) : List PyDict × Option String :=
  let result_code := doc.resultCode.getD ""
  if result_code ≠ "000" then ([], some result_code)
  else (_parse_apt_trades_loop doc.items, none)

/-- Item loop of `_parse_officetel_trades`. -/
def _parse_officetel_trades_loop : List XmlItem → List PyDict
  | [] => []
  | item :: rest =>
    if _txt item "cdealType" = "O" then _parse_officetel_trades_loop rest
    else
      match _parse_amount (_txt item "dealAmount") with
      | none => _parse_officetel_trades_loop rest
      | some price =>
        [("unit_name", PyVal.str (_txt item "offiNm")),
         ("dong", PyVal.str (_txt item "umdNm")),
         ("area_sqm", PyVal.rat (_parse_float (_txt item "excluUseAr"))),
         ("floor", PyVal.int (_parse_int (_txt item "floor"))),
         ("price_10k", PyVal.int price),
         ("trade_date", PyVal.str (_make_date item)),
         ("build_year", PyVal.int (_parse_int (_txt item "buildYear"))),
         ("deal_type", PyVal.str (_txt item "dealingGbn"))] :: _parse_officetel_trades_loop rest

/-- `_parse_officetel_trades`: officetel sale records. -/
def _parse_officetel_trades (doc : XmlDoc) : List PyDict × Option String :=
  let result_code := doc.resultCode.getD ""
  if result_code ≠ "000" then ([], some result_code)
  else (_parse_officetel_trades_loop doc.items, none)

/-- Item loop of `_parse_villa_trades`. -/
def _parse_villa_trades_loop : List XmlItem → List PyDict
  | [] => []
  | item :: rest =>
    if _txt item "cdealType" = "O" then _parse_villa_trades_loop rest
    else
      match _parse_amount (_txt item "dealAmount") with
      | none => _parse_villa_trades_loop rest
      | some price =>
        [("unit_name", PyVal.str (_txt item "mhouseNm")),
         ("dong", PyVal.str (_txt item "umdNm")),
         ("house_type", PyVal.str (_txt item "houseType")),
         ("area_sqm", PyVal.rat (_parse_float (_txt item "excluUseAr"))),
         ("floor", PyVal.int (_parse_int (_txt item "floor"))),
         ("price_10k", PyVal.int price),
         ("trade_date", PyVal.str (_make_date item)),
         ("build_year", PyVal.int (_parse_int (_txt item "buildYear"))),
         ("deal_type", PyVal.str (_txt item "dealingGbn"))] :: _parse_villa_trades_loop rest

/-- `_parse_villa_trades`: row-house / multi-family sale records. -/
def _parse_villa_trades (doc : XmlDoc) : List PyDict × Option String :=
  let result_code := doc.resultCode.getD ""
  if result_code ≠ "000" then ([], some result_code)
  else (_parse_villa_trades_loop doc.items, none)

/-- Item loop of `_parse_single_house_trades`. -/
def _parse_single_house_trades_loop : List XmlItem → List PyDict
  | [] => []
  | item :: rest =>
    if _txt item "cdealType" = "O" then _parse_single_house_trades_loop rest
    else
      match _parse_amount (_txt item "dealAmount") with
      | none => _parse_single_house_trades_loop rest
      | some price =>
        [("unit_name", PyVal.str ""),
         ("dong", PyVal.str (_txt item "umdNm")),
         ("house_type", PyVal.str (_txt item "houseType")),
         ("area_sqm", PyVal.rat (_parse_float (_txt item "totalFloorAr"))),
         ("floor", PyVal.int 0),
         ("price_10k", PyVal.int price),
         ("trade_date", PyVal.str (_make_date item)),
         ("build_year", PyVal.int (_parse_int (_txt item "buildYear"))),
         ("deal_type", PyVal.str (_txt item "dealingGbn"))] :: _parse_single_house_trades_loop rest

/-- `_parse_single_house_trades`: detached / multi-unit house sale
records. -/
def _parse_single_house_trades (doc : XmlDoc) : List PyDict × Option String :=
  let result_code := doc.resultCode.getD ""
  if result_code ≠ "000" then ([], some result_code)
  else (_parse_single_house_trades_loop doc.items, none)

/-- Item loop of `_parse_commercial_trade`.  Note the source reads the
lowercase tag `cdealtype` here, unlike the residential parsers. -/
def _parse_commercial_trade_loop : List XmlItem → List PyDict
  | [] => []
  | item :: rest =>
    if _txt item "cdealtype" = "O" then _parse_commercial_trade_loop rest
    else
      match _parse_amount (_txt item "dealAmount") with
      | none => _parse_commercial_trade_loop rest
      | some price =>
        [("building_type", PyVal.str (_txt item "buildingType")),
         ("building_use", PyVal.str (_txt item "buildingUse")),
         ("land_use", PyVal.str (_txt item "landUse")),
         ("dong", PyVal.str (_txt item "umdNm")),
         ("building_ar", PyVal.rat (_parse_float (_txt item "buildingAr"))),
         ("floor", PyVal.int (_parse_int (_txt item "floor"))),
         ("price_10k", PyVal.int price),
         ("trade_date", PyVal.str (_make_date item)),
         ("build_year", PyVal.int (_parse_int (_txt item "buildYear"))),
         ("deal_type", PyVal.str (_txt item "dealingGbn")),
         ("share_dealing", PyVal.str (_txt item "shareDealingType"))] ::
          _parse_commercial_trade_loop rest

/-- `_parse_commercial_trade`: commercial / business building sale
records. -/
def _parse_commercial_trade (doc : XmlDoc) : List PyDict × Option String :=
  let result_code := doc.resultCode.getD ""
  if result_code ≠ "000" then ([], some result_code)
  else (_parse_commercial_trade_loop doc.items, none)

/-- `monthly_rent = _parse_amount(raw) if raw else 0`, then stored as
`monthly_rent or 0` (so a `None` parse also becomes `0`). -/
def rentOrZero (item : XmlItem) : Int :=
  let raw := _txt item "monthlyRent"
  if raw = "" then 0
  else ((_parse_amount raw).getD 0)

/-- Item loop of `_parse_apt_rent`. -/
def _parse_apt_rent_loop : List XmlItem → List PyDict
  | [] => []
  | item :: rest =>
    if _txt item "cdealType" = "O" then _parse_apt_rent_loop rest
    else
      match _parse_amount (_txt item "deposit") with
      | none => _parse_apt_rent_loop rest
      | some deposit =>
        [("unit_name", PyVal.str (_txt item "aptNm")),
         ("dong", PyVal.str (_txt item "umdNm")),
         ("area_sqm", PyVal.rat (_parse_float (_txt item "excluUseAr"))),
         ("floor", PyVal.int (_parse_int (_txt item "floor"))),
         ("deposit_10k", PyVal.int deposit),
         ("monthly_rent_10k", PyVal.int (rentOrZero item)),
         ("contract_type", PyVal.str (_txt item "contractType")),
         ("trade_date", PyVal.str (_make_date item)),
         ("build_year", PyVal.int (_parse_int (_txt item "buildYear")))] ::
          _parse_apt_rent_loop rest

/-- `_parse_apt_rent`: apartment lease / rent records. -/
def _parse_apt_rent (doc : XmlDoc) : List PyDict × Option String :=
  let result_code := doc.resultCode.getD ""
  if result_code ≠ "000" then ([], some result_code)
  else (_parse_apt_rent_loop doc.items, none)

/-- Item loop of `_parse_officetel_rent`.  The source has no cancelled
(`cdealType`) check in this loop. -/
def _parse_officetel_rent_loop : List XmlItem → List PyDict
  | [] => []
  | item :: rest =>
    match _parse_amount (_txt item "deposit") with
    | none => _parse_officetel_rent_loop rest
    | some deposit =>
      [("unit_name", PyVal.str (_txt item "offiNm")),
       ("dong", PyVal.str (_txt item "umdNm")),
       ("area_sqm", PyVal.rat (_parse_float (_txt item "excluUseAr"))),
       ("floor", PyVal.int (_parse_int (_txt item "floor"))),
       ("deposit_10k", PyVal.int deposit),
       ("monthly_rent_10k", PyVal.int (rentOrZero item)),
       ("contract_type", PyVal.str (_txt item "contractType")),
       ("trade_date", PyVal.str (_make_date item)),
       ("build_year", PyVal.int (_parse_int (_txt item "buildYear")))] ::
        _parse_officetel_rent_loop rest

/-- `_parse_officetel_rent`: officetel lease / rent records. -/
def _parse_officetel_rent (doc : XmlDoc) : List PyDict × Option String :=
  let result_code := doc.resultCode.getD ""
  if result_code ≠ "000" then ([], some result_code)
  else (_parse_officetel_rent_loop doc.items, none)

/-- Item loop of `_parse_single_house_rent`.  The source has no cancelled
(`cdealType`) check in this loop. -/
def _parse_single_house_rent_loop : List XmlItem → List PyDict
  | [] => []
  | item :: rest =>
    match _parse_amount (_txt item "deposit") with
    | none => _parse_single_house_rent_loop rest
    | some deposit =>
      [("unit_name", PyVal.str ""),
       ("dong", PyVal.str (_txt item "umdNm")),
       ("house_type", PyVal.str (_txt item "houseType")),
       ("area_sqm", PyVal.rat (_parse_float (_txt item "totalFloorAr"))),
       ("deposit_10k", PyVal.int deposit),
       ("monthly_rent_10k", PyVal.int (rentOrZero item)),
       ("contract_type", PyVal.str (_txt item "contractType")),
       ("trade_date", PyVal.str (_make_date item)),
       ("build_year", PyVal.int (_parse_int (_txt item "buildYear")))] ::
        _parse_single_house_rent_loop rest

/-- `_parse_single_house_rent`: detached / multi-unit house lease / rent
records. -/
def _parse_single_house_rent (doc : XmlDoc) : List PyDict × Option String :=
  let result_code := doc.resultCode.getD ""
  if result_code ≠ "000" then ([], some result_code)
  else (_parse_single_house_rent_loop doc.items, none)

/-! ### Circuit breaker (`_helpers.py`, class `CircuitBreaker`) -/

/-- Retry configuration `_RETRY_MAX_ATTEMPTS`. -/
def _RETRY_MAX_ATTEMPTS : Nat := 3

/-- Circuit-breaker failure threshold `_CIRCUIT_BREAKER_FAILURE_THRESHOLD`. -/
def _CIRCUIT_BREAKER_FAILURE_THRESHOLD : Nat := 5

/-- Circuit-breaker recovery timeout `_CIRCUIT_BREAKER_RECOVERY_TIMEOUT`
in seconds. -/
def _CIRCUIT_BREAKER_RECOVERY_TIMEOUT : Int := 30

/-- The three circuit-breaker states (`CircuitState`); `opened` embeds the
Python `OPEN` member. -/
inductive CircuitState where
  | closed
  | opened
  | halfOpen
deriving DecidableEq

/-- A structured error payload `{"error": ..., "message": ..., "code"?}`. -/
structure ErrorDict where
  error : String
  message : String
  code : Option String := none
deriving DecidableEq

/-- The `CircuitBreaker` dataclass state. -/
structure CircuitBreaker where
  failure_threshold : Nat := _CIRCUIT_BREAKER_FAILURE_THRESHOLD
  recovery_timeout : Int := _CIRCUIT_BREAKER_RECOVERY_TIMEOUT
  failure_count : Nat := 0
  last_failure_time : Option Int := none
  state : CircuitState := CircuitState.closed
  last_notification_time : Option Int := none
deriving DecidableEq

/-- The blocked-request error value returned while the circuit is open. -/
def circuitOpenError : ErrorDict :=
  { error := "circuit_breaker_open",
    message := "API requests are temporarily blocked due to repeated failures. Please try again in a few moments." }

/-- The still-in-cooldown tail of `can_execute`: rate-limited user
notification (state update of `_last_notification_time`) and the blocked
result. -/
def blockResult (cb : CircuitBreaker) (now : Int) :
    CircuitBreaker × Bool × Option ErrorDict :=
  let notify : Bool := match cb.last_notification_time with
    | none => true
    | some t => now - t ≥ 10
  let cb' := if notify then { cb with last_notification_time := some now } else cb
  (cb', false, some circuitOpenError)

/-- `CircuitBreaker.can_execute()` at instant `now`: returns the updated
breaker, whether the request may proceed, and the blocking error if not.
In `OPEN`, the recovery-timeout check advances the state to `HALF_OPEN`
as a side effect; in `HALF_OPEN` the request is allowed. -/
def can_execute (cb : CircuitBreaker) (now : Int) :
    CircuitBreaker × Bool × Option ErrorDict :=
  match cb.state with
  | CircuitState.closed => (cb, true, none)
  | CircuitState.opened =>
    match cb.last_failure_time with
    | some t =>
      if now - t ≥ cb.recovery_timeout then
        ({ cb with state := CircuitState.halfOpen }, true, none)
      else blockResult cb now
    | none => blockResult cb now
  | CircuitState.halfOpen => (cb, true, none)

/-- `CircuitBreaker.record_success()`: reset the failure counter and
force the state to `CLOSED`. -/
def record_success (cb : CircuitBreaker) : CircuitBreaker :=
  { cb with failure_count := 0, state := CircuitState.closed }

/-- `CircuitBreaker.record_failure()` at instant `now`: bump the failure
counter, stamp the failure time; reopen from `HALF_OPEN`, or open from
the threshold being reached. -/
def record_failure (cb : CircuitBreaker) (now : Int) : CircuitBreaker :=
  let cb' := { cb with
    failure_count := cb.failure_count + 1,
    last_failure_time := some now }
  if cb.state = CircuitState.halfOpen then
    { cb' with state := CircuitState.opened }
  else if cb'.failure_count ≥ cb'.failure_threshold then
    { cb' with state := CircuitState.opened }
  else cb'

/-! ### Resilient fetchers (`_fetch_xml`, `_fetch_json`)

One logical call makes up to `_RETRY_MAX_ATTEMPTS` numbered network
attempts; the outcome of attempt `i` is given by an oracle.  The
`tenacity` retry manager used by the source swallows every exception
raised by an attempt and retries until the attempt budget is exhausted,
then re-raises the last exception (`reraise=True`), which the trailing
`except` clauses translate into error dicts. -/

/-- Outcome of a single network attempt of `_fetch_xml`. -/
inductive XmlAttempt where
  | success (text : String)
  | timeout (msg : String)
  | statusError (code : Nat)
  | connError (msg : String)
deriving DecidableEq

/-- Outcome of a single network attempt of `_fetch_json`; `decodeError`
is the `ValueError` raised by `response.json()` on a 2xx body that is
not JSON. -/
inductive JsonAttempt (α : Type) where
  | success (body : α)
  | timeout (msg : String)
  | statusError (code : Nat)
  | connError (msg : String)
  | decodeError (msg : String)
deriving DecidableEq

/-- The tenacity retry driver: starting at attempt number `i` with
`budget` retries remaining after the current attempt, return the number
of the last attempt made and its outcome.  A success stops immediately;
any failure is retried while budget remains, and the final attempt's
outcome is returned as is (`reraise=True`). -/
def retryGo {α : Type} (att : Nat → JsonAttempt α) : Nat → Nat → Nat × JsonAttempt α
  | i, 0 => (i, att i)
  | i, budget + 1 =>
    match att i with
    | JsonAttempt.success b => (i, JsonAttempt.success b)
    | _ => retryGo att (i + 1) budget

/-- The same retry driver for the XML fetcher's decode-free outcome
set. -/
def retryGoXml (att : Nat → XmlAttempt) : Nat → Nat → Nat × XmlAttempt
  | i, 0 => (i, att i)
  | i, budget + 1 =>
    match att i with
    | XmlAttempt.success t => (i, XmlAttempt.success t)
    | _ => retryGoXml att (i + 1) budget

/-- Result pair of a fetcher: `(body?, error?)`. -/
structure FetchResult (α : Type) where
  body : Option α
  err : Option ErrorDict
deriving DecidableEq

/-- Full outcome of one fetcher call: the circuit breaker afterward, the
returned pair, and how many network attempts were actually made (0 when
the breaker blocked the call). -/
structure FetchTrace (α : Type) where
  cb : CircuitBreaker
  result : FetchResult α
  attempts : Nat
deriving DecidableEq

/-- The retry-exhaustion timeout error dict. -/
def timeoutExhaustedError : ErrorDict :=
  { error := "network_error",
    message := "API server timed out after " ++ toString _RETRY_MAX_ATTEMPTS ++ " attempts. Please try again later." }

/-- The non-2xx status error dict, `"HTTP error: <status>"`. -/
def httpStatusErrorDict (c : Nat) : ErrorDict :=
  { error := "network_error", message := "HTTP error: " ++ toString c }

/-- The connection error dict, `"Network error: <exc>"`. -/
def networkErrorDict (m : String) : ErrorDict :=
  { error := "network_error", message := "Network error: " ++ m }

/-- The JSON decode error dict, `"JSON parse failed: <exc>"`. -/
def jsonParseErrorDict (m : String) : ErrorDict :=
  { error := "parse_error", message := "JSON parse failed: " ++ m }

/-- `_fetch_json(url, headers)` at instant `now` against attempt oracle
`att`: consult the circuit breaker, run the retry loop, then translate
the final outcome exactly as the source's `except` clauses do.  A decode
failure is reported as `parse_error` and does not touch the breaker; the
other failure kinds call `record_failure` once for the whole call. -/
def _fetch_json {α : Type} (cb : CircuitBreaker) (now : Int)
    (att : Nat → JsonAttempt α) : FetchTrace α :=
  let gate := can_execute cb now
  let cb1 := gate.1
  if gate.2.1 = false then
    { cb := cb1, result := { body := none, err := gate.2.2 }, attempts := 0 }
  else
    let run := retryGo att 1 (_RETRY_MAX_ATTEMPTS - 1)
    match run.2 with
    | JsonAttempt.success b =>
      { cb := record_success cb1, result := { body := some b, err := none },
        attempts := run.1 }
    | JsonAttempt.timeout _ =>
      { cb := record_failure cb1 now,
        result := { body := none, err := some timeoutExhaustedError },
        attempts := run.1 }
    | JsonAttempt.statusError c =>
      { cb := record_failure cb1 now,
        result := { body := none, err := some (httpStatusErrorDict c) },
        attempts := run.1 }
    | JsonAttempt.connError m =>
      { cb := record_failure cb1 now,
        result := { body := none, err := some (networkErrorDict m) },
        attempts := run.1 }
    | JsonAttempt.decodeError m =>
      { cb := cb1,
        result := { body := none, err := some (jsonParseErrorDict m) },
        attempts := run.1 }

/-- `_fetch_xml(url)` at instant `now` against attempt oracle `att`:
same structure as `_fetch_json`, without the decode-failure clause (the
source returns `response.text` directly). -/
def _fetch_xml (cb : CircuitBreaker) (now : Int)
    (att : Nat → XmlAttempt) : FetchTrace String :=
  let gate := can_execute cb now
  let cb1 := gate.1
  if gate.2.1 = false then
    { cb := cb1, result := { body := none, err := gate.2.2 }, attempts := 0 }
  else
    let run := retryGoXml att 1 (_RETRY_MAX_ATTEMPTS - 1)
    match run.2 with
    | XmlAttempt.success t =>
      { cb := record_success cb1, result := { body := some t, err := none },
        attempts := run.1 }
    | XmlAttempt.timeout _ =>
      { cb := record_failure cb1 now,
        result := { body := none, err := some timeoutExhaustedError },
        attempts := run.1 }
    | XmlAttempt.statusError c =>
      { cb := record_failure cb1 now,
        result := { body := none, err := some (httpStatusErrorDict c) },
        attempts := run.1 }
    | XmlAttempt.connError m =>
      { cb := record_failure cb1 now,
        result := { body := none, err := some (networkErrorDict m) },
        attempts := run.1 }

/-! ### Cache keying (`cache_manager.generate_cache_key`)

`generate_cache_key(url, params)` builds `url` when `params is None`,
else `url + "?" + urlencode(sorted(params.items()))`, and returns the
SHA-256 hexdigest of that string.  The digest is a fixed deterministic
post-processing step (equal inputs give equal digests); the embedding
exposes the pre-hash string, which is the level at which the spec states
its equality and distinctness properties ("up to hash collision").
Parameter keys and values are embedded as strings (`urlencode` applies
`str(...)` first). -/

/-- Characters `urllib.parse.quote_plus` never escapes: ASCII
alphanumerics and `_.-~`. -/
def alwaysSafeChar (c : Char) : Bool :=
  c.isAlpha || c.isDigit || c = '_' || c = '.' || c = '-' || c = '~'

/-- Uppercase hexadecimal digit, for percent escapes. -/
def hexDigitChar (n : Nat) : Char :=
  match n with
  | 0 => '0' | 1 => '1' | 2 => '2' | 3 => '3' | 4 => '4'
  | 5 => '5' | 6 => '6' | 7 => '7' | 8 => '8' | 9 => '9'
  | 10 => 'A' | 11 => 'B' | 12 => 'C' | 13 => 'D' | 14 => 'E'
  | _ => 'F'

/-- The UTF-8 bytes of the Unicode scalar value `n` (the byte encoding
that `quote_plus` percent-escapes). -/
def utf8Bytes (n : Nat) : List Nat :=
  if n < 0x80 then [n]
  else if n < 0x800 then [0xC0 + n / 0x40, 0x80 + n % 0x40]
  else if n < 0x10000 then
    [0xE0 + n / 0x1000, 0x80 + (n / 0x40) % 0x40, 0x80 + n % 0x40]
  else
    [0xF0 + n / 0x40000, 0x80 + (n / 0x1000) % 0x40, 0x80 + (n / 0x40) % 0x40,
     0x80 + n % 0x40]

/-- A percent escape `%XX` for one byte. -/
def pctByte (b : Nat) : List Char :=
  ['%', hexDigitChar (b / 16), hexDigitChar (b % 16)]

/-- `quote_plus` on one character: space becomes `+`, safe characters
stay, anything else is percent-escaped byte by byte. -/
def quotePlusChar (c : Char) : List Char :=
  if c = ' ' then ['+']
  else if alwaysSafeChar c then [c]
  else (utf8Bytes c.toNat).flatMap pctByte

/-- `quote_plus(s, safe='')` as a character list. -/
def quotePlus (s : String) : List Char :=
  s.data.flatMap quotePlusChar

/-- One `key=value` component of `urlencode`. -/
def encPair (p : String × String) : List Char :=
  quotePlus p.1 ++ '=' :: quotePlus p.2

/-- `urllib.parse.urlencode` over an ordered pair list: the `key=value`
components joined with `&`. -/
def urlencodePairs : List (String × String) → List Char
  | [] => []
  | [p] => encPair p
  | p :: q :: rest => encPair p ++ '&' :: urlencodePairs (q :: rest)

/-- Strict lexicographic comparison of character lists by code point,
mirroring Python string comparison. -/
def strLtB : List Char → List Char → Bool
  | _, [] => false
  | [], _ :: _ => true
  | a :: as, b :: bs => if a < b then true else if a = b then strLtB as bs else false

/-- Python tuple comparison `(k1, v1) < (k2, v2)` for string pairs. -/
def pairLtB (x y : String × String) : Bool :=
  strLtB x.1.data y.1.data || (x.1 == y.1 && strLtB x.2.data y.2.data)

/-- The matching weak order `x ≤ y ⟺ ¬ y < x` on parameter items. -/
def paramLe (x y : String × String) : Prop :=
  pairLtB y x = false

instance : DecidableRel paramLe :=
  fun x y => inferInstanceAs (Decidable (pairLtB y x = false))

/-- `sorted(params.items())`: the unique ascending ordering of the pairs
under Python tuple comparison. -/
def sortParams (l : List (String × String)) : List (String × String) :=
  List.insertionSort paramLe l

/-- `generate_cache_key(url, params)` up to the final SHA-256 hexdigest:
the pre-hash key input string. -/
def generate_cache_key (url : String) (params : Option (List (String × String))) : String :=
  match params with
  | none => url
  | some ps => url ++ "?" ++ String.mk (urlencodePairs (sortParams ps))

/-! ### API cache (`cache_manager.APICache`) and cached fetchers

`APICache` wraps the third-party `cachetools.TTLCache` store.  TTL
expiry and capacity eviction live inside that library and only ever
remove entries; the embedding models the store at one instant as the
plain key-to-value map together with the hit/miss statistics, which is
what the cached-fetch control flow reads and writes. -/

/-- `CacheStats`: hit and miss counters. -/
structure CacheStats where
  hits : Nat := 0
  misses : Nat := 0
deriving DecidableEq

/-- The cached value is the stored `(response, error)` tuple. -/
abbrev CacheVal (α : Type) := Option α × Option ErrorDict

/-- `APICache` state: the entries of the underlying store and the
statistics. -/
structure APICache (α : Type) where
  entries : List (String × CacheVal α) := []
  stats : CacheStats := {}
deriving DecidableEq

/-- Store lookup, `self._cache[key]` up to `KeyError`. -/
def cacheLookup {α : Type} (c : APICache α) (key : String) : Option (CacheVal α) :=
  ((c.entries.find? (fun p => p.1 == key)).map (fun p => p.2))

/-- `APICache.get(key)`: the found value (or `none`), with the hit or
miss counter bumped. -/
def cacheGet {α : Type} (c : APICache α) (key : String) :
    APICache α × Option (CacheVal α) :=
  match cacheLookup c key with
  | some v => ({ c with stats := { c.stats with hits := c.stats.hits + 1 } }, some v)
  | none => ({ c with stats := { c.stats with misses := c.stats.misses + 1 } }, none)

/-- `APICache.set(key, value)`: replace the binding if present, else
append it. -/
def cacheSet {α : Type} (c : APICache α) (key : String) (v : CacheVal α) : APICache α :=
  if (c.entries.find? (fun p => p.1 == key)).isSome then
    { c with entries := c.entries.map (fun p => if p.1 == key then (key, v) else p) }
  else
    { c with entries := c.entries ++ [(key, v)] }

/-- Full outcome of one cached-fetch call: cache and breaker afterward,
the returned pair, and whether the underlying fetcher was invoked. -/
structure CachedFetchOut (α : Type) where
  cache : APICache α
  cb : CircuitBreaker
  result : FetchResult α
  fetchInvoked : Bool
deriving DecidableEq

/-- `cached_fetch_xml(url, params)`: look the key up; a cached pair with
no error is returned directly; otherwise `_fetch_xml` runs and its pair
is stored only when the error is `None` and the response is not
`None`. -/
def cached_fetch_xml (cache : APICache String) (cb : CircuitBreaker) (now : Int)
    (att : Nat → XmlAttempt) (url : String)
    (params : Option (List (String × String))) : CachedFetchOut String :=
  let key := generate_cache_key url params
  let looked := cacheGet cache key
  match looked.2 with
  | some (resp, none) =>
    { cache := looked.1, cb := cb, result := { body := resp, err := none },
      fetchInvoked := false }
  | _ =>
    let t := _fetch_xml cb now att
    let cache2 :=
      if t.result.err = none && t.result.body.isSome then
        cacheSet looked.1 key (t.result.body, t.result.err)
      else looked.1
    { cache := cache2, cb := t.cb, result := t.result, fetchInvoked := true }

/-- `cached_fetch_json(url, params, headers)`: same control flow over
`_fetch_json`. -/
def cached_fetch_json {α : Type} [DecidableEq α] (cache : APICache α)
    (cb : CircuitBreaker) (now : Int) (att : Nat → JsonAttempt α) (url : String)
    (params : Option (List (String × String))) : CachedFetchOut α :=
  let key := generate_cache_key url params
  let looked := cacheGet cache key
  match looked.2 with
  | some (resp, none) =>
    { cache := looked.1, cb := cb, result := { body := resp, err := none },
      fetchInvoked := false }
  | _ =>
    let t := _fetch_json cb now att
    let cache2 :=
      if t.result.err = none && t.result.body.isSome then
        cacheSet looked.1 key (t.result.body, t.result.err)
      else looked.1
    { cache := cache2, cb := t.cb, result := t.result, fetchInvoked := true }

/-! ### Summary builders (`_build_rent_summary`)

`statistics.median` and `statistics.mean` compute exact division of
integer data; Python `int(...)` then truncates toward zero. -/

/-- Python `int(q)` for a rational: truncation toward zero
(`Int.div` is Lean's toward-zero division). -/
def pyTrunc (q : ℚ) : Int :=
  Int.tdiv q.num (q.den : Int)

/-- Ascending sort of an integer list, as `statistics.median` performs
on its data. -/
def pySortedInt (l : List Int) : List Int :=
  List.insertionSort (fun a b => a ≤ b) l

/-- `statistics.median` over integers, exactly: middle element for odd
length, average of the two middle elements for even length. -/
def pyMedian (l : List Int) : ℚ :=
  let s := pySortedInt l
  let n := s.length
  if n % 2 = 1 then ((s.getD (n / 2) 0 : Int) : ℚ)
  else (((s.getD (n / 2 - 1) 0 : Int) : ℚ) + ((s.getD (n / 2) 0 : Int) : ℚ)) / 2

/-- `statistics.mean` over integers, exactly. -/
def pyMean (l : List Int) : ℚ :=
  ((l.sum : Int) : ℚ) / (l.length : ℚ)

/-- Python `min` over a non-empty integer list (`0` backstops the
unreachable empty case). -/
def pyMin : List Int → Int
  | [] => 0
  | x :: xs => xs.foldl min x

/-- Python `max` over a non-empty integer list (`0` backstops the
unreachable empty case). -/
def pyMax : List Int → Int
  | [] => 0
  | x :: xs => xs.foldl max x

/-- A rent record as consumed by `_build_rent_summary`: the
`deposit_10k` and `monthly_rent_10k` fields of the normalized dict. -/
structure RentItem where
  deposit_10k : Int
  monthly_rent_10k : Int
deriving DecidableEq

/-- The rent summary dict. -/
structure RentSummary where
  median_deposit_10k : Int
  min_deposit_10k : Int
  max_deposit_10k : Int
  monthly_rent_avg_10k : Int
  jeonse_ratio_pct : Option ℚ
  sample_count : Nat
deriving DecidableEq

/-- `_build_rent_summary(items)`. -/
def _build_rent_summary (items : List RentItem) : RentSummary :=
  if items = [] then
    { median_deposit_10k := 0, min_deposit_10k := 0, max_deposit_10k := 0,
      monthly_rent_avg_10k := 0, jeonse_ratio_pct := none, sample_count := 0 }
  else
    let deposits := items.map RentItem.deposit_10k
    let rents := items.map RentItem.monthly_rent_10k
    { median_deposit_10k := pyTrunc (pyMedian deposits),
      min_deposit_10k := pyMin deposits,
      max_deposit_10k := pyMax deposits,
      monthly_rent_avg_10k := if rents = [] then 0 else pyTrunc (pyMean rents),
      jeonse_ratio_pct := none,
      sample_count := deposits.length }

/-! ## Theorems -/

/-! ### C10: composite trade-date assembly -/

/-- C10: in `_make_date`, the result is the empty string exactly when the
year text is empty; when the year is present and the month (resp. day)
text is empty, the missing component is zero-filled to `00`, so the
result has the shape `YYYY-00-DD` / `YYYY-MM-00` rather than being empty
or a calendar date (month and day components range from `01`). -/
theorem make_date_zero_fills (it : XmlItem) :
    (_make_date it = "" ↔ _txt it "dealYear" = "") ∧
    (_txt it "dealYear" ≠ "" → _txt it "dealMonth" = "" →
      _make_date it = _txt it "dealYear" ++ "-00-" ++ zfill (_txt it "dealDay") 2) ∧
    (_txt it "dealYear" ≠ "" → _txt it "dealDay" = "" →
      _make_date it = _txt it "dealYear" ++ "-" ++ zfill (_txt it "dealMonth") 2 ++ "-00") := by
  refine ⟨?_, ?_, ?_⟩
  · unfold _make_date
    by_cases h : _txt it "dealYear" = ""
    · simp [h]
    · simp only [h, if_neg h, iff_false]
      intro hcontra
      rw [String.ext_iff] at hcontra
      simp [String.data_append] at hcontra
  · intro hy hm
    unfold _make_date
    rw [if_neg hy, hm]
    apply String.ext
    simp [String.data_append, zfill, zfillData]
  · intro hy hd
    unfold _make_date
    rw [if_neg hy, hd]
    apply String.ext
    simp [String.data_append, zfill, zfillData]

/-- Concrete item for the C10 witness: a year but no month or day
children. -/
def itemYearOnly : XmlItem := ⟨[("dealYear", "2024")]⟩

/-- C10 witness: on an item carrying only `dealYear = "2024"`, the
assembled date is `"2024-00-00"`, not empty. -/
theorem make_date_zero_fills_witness :
    _txt itemYearOnly "dealYear" = "2024" ∧ _txt itemYearOnly "dealMonth" = "" ∧
    _make_date itemYearOnly =
      _txt itemYearOnly "dealYear" ++ "-00-" ++ zfill (_txt itemYearOnly "dealDay") 2 ∧
    _make_date itemYearOnly = "2024-00-00" ∧ ¬ _make_date itemYearOnly = "" := by
  refine ⟨by decide, by decide, ?_, by decide, by decide⟩
  exact (make_date_zero_fills itemYearOnly).2.1 (by decide) (by decide)

/-! ### C1: half-open single trial -/

/-- A breaker that tripped open with its last failure at instant 0. -/
def cbOpenAt0 : CircuitBreaker :=
  { state := CircuitState.opened, last_failure_time := some 0, failure_count := 5 }

/-- C1 (failing input): with the breaker `Open` since instant 0 and
`recovery_timeout = 30`, the first `can_execute` poll at instant 30 is
allowed and advances the state to `HalfOpen`; but the second and third
polls, made while that trial is still pending, are allowed as well —
the `HalfOpen` branch of `can_execute` returns `(True, None)`
unconditionally, so additional polls are not blocked as claimed. -/
theorem half_open_allows_every_poll :
    (can_execute cbOpenAt0 30).2.1 = true ∧
    (can_execute cbOpenAt0 30).1.state = CircuitState.halfOpen ∧
    (can_execute (can_execute cbOpenAt0 30).1 31).2.1 = true ∧
    (can_execute (can_execute (can_execute cbOpenAt0 30).1 31).1 32).2.1 = true := by
  decide

/-! ### C2: which failures are retried -/

/-- An attempt oracle whose every attempt fails with HTTP status 500. -/
def attStatus500 : Nat → JsonAttempt Unit := fun _ => JsonAttempt.statusError 500

/-- An attempt oracle whose every attempt yields a JSON decode failure. -/
def attDecodeFail : Nat → JsonAttempt Unit := fun _ => JsonAttempt.decodeError "bad json"

/-- C2 counterexample: against an endpoint that always returns HTTP 500,
`_fetch_json` makes all 3 network attempts, not 1 — HTTP status errors
are retried (tenacity's default retries every exception); likewise a
JSON decode failure is retried 3 times before the `parse_error` is
returned. -/
theorem status_and_decode_errors_are_retried :
    (_fetch_json ({} : CircuitBreaker) 0 attStatus500).attempts = 3 ∧
    ¬ (_fetch_json ({} : CircuitBreaker) 0 attStatus500).attempts = 1 ∧
    (_fetch_json ({} : CircuitBreaker) 0 attStatus500).result.err
      = some (httpStatusErrorDict 500) ∧
    (_fetch_json ({} : CircuitBreaker) 0 attDecodeFail).attempts = 3 ∧
    ¬ (_fetch_json ({} : CircuitBreaker) 0 attDecodeFail).attempts = 1 := by
  decide

/-- In the `CLOSED` state `can_execute` allows the call and changes
nothing. -/
theorem can_execute_closed (cb : CircuitBreaker) (now : Int)
    (h : cb.state = CircuitState.closed) : can_execute cb now = (cb, true, none) := by
  unfold can_execute
  rw [h]

/-- C2 (amended): every failure kind — timeout, connection error, HTTP
status error, and JSON decode error alike — is retried by the tenacity
wrapper until all `_RETRY_MAX_ATTEMPTS = 3` attempts are spent (its
default retry condition retries any exception), and only then is the
corresponding typed failure returned: `network_error` for
timeout / connection / status, `parse_error` for a decode failure. -/
theorem all_failure_kinds_retried :
    ∀ (cb : CircuitBreaker) (now : Int) (m : String) (c : Nat),
      cb.state = CircuitState.closed →
      _fetch_json (α := Unit) cb now (fun _ => JsonAttempt.timeout m) =
        ⟨record_failure cb now, ⟨none, some timeoutExhaustedError⟩, _RETRY_MAX_ATTEMPTS⟩ ∧
      _fetch_json (α := Unit) cb now (fun _ => JsonAttempt.connError m) =
        ⟨record_failure cb now, ⟨none, some (networkErrorDict m)⟩, _RETRY_MAX_ATTEMPTS⟩ ∧
      _fetch_json (α := Unit) cb now (fun _ => JsonAttempt.statusError c) =
        ⟨record_failure cb now, ⟨none, some (httpStatusErrorDict c)⟩, _RETRY_MAX_ATTEMPTS⟩ ∧
      _fetch_json (α := Unit) cb now (fun _ => JsonAttempt.decodeError m) =
        ⟨cb, ⟨none, some (jsonParseErrorDict m)⟩, _RETRY_MAX_ATTEMPTS⟩ ∧
      _fetch_xml cb now (fun _ => XmlAttempt.timeout m) =
        ⟨record_failure cb now, ⟨none, some timeoutExhaustedError⟩, _RETRY_MAX_ATTEMPTS⟩ ∧
      _fetch_xml cb now (fun _ => XmlAttempt.connError m) =
        ⟨record_failure cb now, ⟨none, some (networkErrorDict m)⟩, _RETRY_MAX_ATTEMPTS⟩ ∧
      _fetch_xml cb now (fun _ => XmlAttempt.statusError c) =
        ⟨record_failure cb now, ⟨none, some (httpStatusErrorDict c)⟩, _RETRY_MAX_ATTEMPTS⟩ := by
  intro cb now m c h
  refine ⟨?_, ?_, ?_, ?_, ?_, ?_, ?_⟩ <;>
    simp [_fetch_json, _fetch_xml, can_execute_closed cb now h, retryGo, retryGoXml,
      _RETRY_MAX_ATTEMPTS]

/-- C2 amended witness at a concrete closed breaker. -/
theorem all_failure_kinds_retried_witness :
    ({} : CircuitBreaker).state = CircuitState.closed ∧
    _fetch_json (α := Unit) {} 0 (fun _ => JsonAttempt.timeout "boom") =
      ⟨record_failure {} 0, ⟨none, some timeoutExhaustedError⟩, _RETRY_MAX_ATTEMPTS⟩ ∧
    _fetch_json (α := Unit) {} 0 (fun _ => JsonAttempt.statusError 500) =
      ⟨record_failure {} 0, ⟨none, some (httpStatusErrorDict 500)⟩, _RETRY_MAX_ATTEMPTS⟩ :=
  ⟨by decide, (all_failure_kinds_retried {} 0 "boom" 500 (by decide)).1,
    (all_failure_kinds_retried {} 0 "boom" 500 (by decide)).2.2.1⟩

/-! ### C7: decode failures and the circuit breaker -/

/-- `can_execute` never changes the failure counter. -/
theorem can_execute_failure_count (cb : CircuitBreaker) (now : Int) :
    (can_execute cb now).1.failure_count = cb.failure_count := by
  unfold can_execute blockResult
  cases cb.state <;> cases cb.last_failure_time <;> simp <;> split_ifs <;> rfl

/-- C7: on a call whose attempts end in a JSON decode failure,
`_fetch_json` returns a `parse_error` failure and applies neither
`record_failure` nor `record_success` — the breaker is exactly the one
left by the `can_execute` gate, its failure counter untouched (and from
the normal `Closed` state it is completely unchanged); timeout,
connection and status failures leave the breaker equal to a single
`record_failure` application, which bumps the failure counter by exactly
one for the whole call. -/
theorem decode_error_spares_breaker :
    ∀ (cb : CircuitBreaker) (now : Int) (m : String) (c : Nat),
      ((can_execute cb now).2.1 = true →
        ((_fetch_json (α := Unit) cb now (fun _ => JsonAttempt.decodeError m)).cb
            = (can_execute cb now).1 ∧
         (_fetch_json (α := Unit) cb now (fun _ => JsonAttempt.decodeError m)).cb.failure_count
            = cb.failure_count ∧
         (_fetch_json (α := Unit) cb now (fun _ => JsonAttempt.decodeError m)).result.err
            = some (jsonParseErrorDict m) ∧
         (jsonParseErrorDict m).error = "parse_error")) ∧
      (cb.state = CircuitState.closed →
        ((_fetch_json (α := Unit) cb now (fun _ => JsonAttempt.decodeError m)).cb = cb ∧
         (_fetch_json (α := Unit) cb now (fun _ => JsonAttempt.timeout m)).cb
            = record_failure cb now ∧
         (_fetch_json (α := Unit) cb now (fun _ => JsonAttempt.connError m)).cb
            = record_failure cb now ∧
         (_fetch_json (α := Unit) cb now (fun _ => JsonAttempt.statusError c)).cb
            = record_failure cb now)) ∧
      (record_failure cb now).failure_count = cb.failure_count + 1 := by
  intro cb now m c
  refine ⟨?_, ?_, ?_⟩
  · intro hg
    refine ⟨?_, ?_, ?_, rfl⟩ <;>
      simp [_fetch_json, hg, retryGo, can_execute_failure_count]
  · intro h
    refine ⟨?_, ?_, ?_, ?_⟩ <;>
      simp [_fetch_json, can_execute_closed cb now h, retryGo]
  · simp [record_failure]
    split_ifs <;> rfl

/-- C7 witness at a concrete closed breaker. -/
theorem decode_error_spares_breaker_witness :
    ({} : CircuitBreaker).state = CircuitState.closed ∧
    (can_execute ({} : CircuitBreaker) 0).2.1 = true ∧
    (_fetch_json (α := Unit) {} 0 (fun _ => JsonAttempt.decodeError "bad")).cb = {} ∧
    (_fetch_json (α := Unit) {} 0 (fun _ => JsonAttempt.decodeError "bad")).result.err
      = some (jsonParseErrorDict "bad") ∧
    (_fetch_json (α := Unit) {} 0 (fun _ => JsonAttempt.timeout "t")).cb
      = record_failure {} 0 ∧
    (record_failure ({} : CircuitBreaker) 0).failure_count
      = ({} : CircuitBreaker).failure_count + 1 :=
  ⟨by decide, by decide,
    ((decode_error_spares_breaker {} 0 "bad" 500).2.1 (by decide)).1,
    ((decode_error_spares_breaker {} 0 "bad" 500).1 (by decide)).2.2.1,
    ((decode_error_spares_breaker {} 0 "t" 500).2.1 (by decide)).2.1,
    (decode_error_spares_breaker {} 0 "bad" 500).2.2⟩

/-! ### C5: failures are never cached -/

/-- `get` on an absent key bumps the miss counter and returns nothing. -/
theorem cacheGet_lookup_none {α : Type} (c : APICache α) (k : String)
    (h : cacheLookup c k = none) :
    cacheGet c k = ({ c with stats := { c.stats with misses := c.stats.misses + 1 } }, none) := by
  unfold cacheGet
  rw [h]

/-- `cacheLookup` only reads the entries. -/
theorem cacheLookup_congr {α : Type} (c c' : APICache α) (k : String)
    (h : c.entries = c'.entries) : cacheLookup c k = cacheLookup c' k := by
  simp [cacheLookup, h]

/-- A cached XML fetch on an absent key always reaches the underlying
fetcher. -/
theorem cached_fetch_xml_miss_invokes (cache : APICache String) (cb : CircuitBreaker)
    (now : Int) (att : Nat → XmlAttempt) (url : String)
    (params : Option (List (String × String)))
    (h : cacheLookup cache (generate_cache_key url params) = none) :
    (cached_fetch_xml cache cb now att url params).fetchInvoked = true := by
  unfold cached_fetch_xml
  simp [cacheGet_lookup_none cache _ h]

/-- A cached JSON fetch on an absent key always reaches the underlying
fetcher. -/
theorem cached_fetch_json_miss_invokes {α : Type} [DecidableEq α] (cache : APICache α)
    (cb : CircuitBreaker) (now : Int) (att : Nat → JsonAttempt α) (url : String)
    (params : Option (List (String × String)))
    (h : cacheLookup cache (generate_cache_key url params) = none) :
    (cached_fetch_json cache cb now att url params).fetchInvoked = true := by
  unfold cached_fetch_json
  simp [cacheGet_lookup_none cache _ h]

/-- C5: when the underlying fetch of a `cached_fetch_xml` /
`cached_fetch_json` call fails, the error is returned to the caller but
nothing is stored: the entries are unchanged, the request's key is still
absent afterward, and a later identical request reaches the underlying
fetcher again. -/
theorem failures_never_cached :
    (∀ (cache : APICache String) (cb : CircuitBreaker) (now : Int)
        (att : Nat → XmlAttempt) (url : String)
        (params : Option (List (String × String))) (e : ErrorDict),
      cacheLookup cache (generate_cache_key url params) = none →
      (_fetch_xml cb now att).result.err = some e →
      (cached_fetch_xml cache cb now att url params).result.err = some e ∧
      (cached_fetch_xml cache cb now att url params).fetchInvoked = true ∧
      (cached_fetch_xml cache cb now att url params).cache.entries = cache.entries ∧
      cacheLookup (cached_fetch_xml cache cb now att url params).cache
        (generate_cache_key url params) = none ∧
      (∀ (cb2 : CircuitBreaker) (now2 : Int) (att2 : Nat → XmlAttempt),
        (cached_fetch_xml (cached_fetch_xml cache cb now att url params).cache
          cb2 now2 att2 url params).fetchInvoked = true)) ∧
    (∀ (cache : APICache Unit) (cb : CircuitBreaker) (now : Int)
        (att : Nat → JsonAttempt Unit) (url : String)
        (params : Option (List (String × String))) (e : ErrorDict),
      cacheLookup cache (generate_cache_key url params) = none →
      (_fetch_json cb now att).result.err = some e →
      (cached_fetch_json cache cb now att url params).result.err = some e ∧
      (cached_fetch_json cache cb now att url params).fetchInvoked = true ∧
      (cached_fetch_json cache cb now att url params).cache.entries = cache.entries ∧
      cacheLookup (cached_fetch_json cache cb now att url params).cache
        (generate_cache_key url params) = none ∧
      (∀ (cb2 : CircuitBreaker) (now2 : Int) (att2 : Nat → JsonAttempt Unit),
        (cached_fetch_json (cached_fetch_json cache cb now att url params).cache
          cb2 now2 att2 url params).fetchInvoked = true)) := by
  constructor
  · intro cache cb now att url params e h hf
    have hmain :
        (cached_fetch_xml cache cb now att url params).result.err = some e ∧
        (cached_fetch_xml cache cb now att url params).fetchInvoked = true ∧
        (cached_fetch_xml cache cb now att url params).cache.entries = cache.entries := by
      unfold cached_fetch_xml
      simp [cacheGet_lookup_none cache _ h, hf]
    have hlook : cacheLookup (cached_fetch_xml cache cb now att url params).cache
        (generate_cache_key url params) = none := by
      rw [cacheLookup_congr _ cache _ hmain.2.2]
      exact h
    exact ⟨hmain.1, hmain.2.1, hmain.2.2, hlook,
      fun cb2 now2 att2 => cached_fetch_xml_miss_invokes _ cb2 now2 att2 url params hlook⟩
  · intro cache cb now att url params e h hf
    have hmain :
        (cached_fetch_json cache cb now att url params).result.err = some e ∧
        (cached_fetch_json cache cb now att url params).fetchInvoked = true ∧
        (cached_fetch_json cache cb now att url params).cache.entries = cache.entries := by
      unfold cached_fetch_json
      simp [cacheGet_lookup_none cache _ h, hf]
    have hlook : cacheLookup (cached_fetch_json cache cb now att url params).cache
        (generate_cache_key url params) = none := by
      rw [cacheLookup_congr _ cache _ hmain.2.2]
      exact h
    exact ⟨hmain.1, hmain.2.1, hmain.2.2, hlook,
      fun cb2 now2 att2 => cached_fetch_json_miss_invokes _ cb2 now2 att2 url params hlook⟩

/-- Always-timing-out XML attempt oracle. -/
def attTimeoutX : Nat → XmlAttempt := fun _ => XmlAttempt.timeout "t"

/-- Always-timing-out JSON attempt oracle. -/
def attTimeoutJ : Nat → JsonAttempt Unit := fun _ => JsonAttempt.timeout "t"

/-- C5 witness: a failing fetch through an empty cache stores nothing,
for both cached fetchers. -/
theorem failures_never_cached_witness :
    ((cached_fetch_xml {} {} 0 attTimeoutX "https://x/data" none).result.err
        = some timeoutExhaustedError ∧
     (cached_fetch_xml {} {} 0 attTimeoutX "https://x/data" none).cache.entries
        = ({} : APICache String).entries ∧
     cacheLookup (cached_fetch_xml {} {} 0 attTimeoutX "https://x/data" none).cache
        (generate_cache_key "https://x/data" none) = none) ∧
    ((cached_fetch_json {} {} 0 attTimeoutJ "https://x/data" none).result.err
        = some timeoutExhaustedError ∧
     cacheLookup (cached_fetch_json {} {} 0 attTimeoutJ "https://x/data" none).cache
        (generate_cache_key "https://x/data" none) = none) := by
  have h1 := failures_never_cached.1 {} {} 0 attTimeoutX "https://x/data" none
    timeoutExhaustedError (by decide) (by decide)
  have h2 := failures_never_cached.2 {} {} 0 attTimeoutJ "https://x/data" none
    timeoutExhaustedError (by decide) (by decide)
  exact ⟨⟨h1.1, h1.2.2.1, h1.2.2.2.1⟩, ⟨h2.1, h2.2.2.2.1⟩⟩

/-! ### C8: rent summary statistics -/

/-- Python `int(q)` agrees with the floor on nonnegative rationals. -/
theorem pyTrunc_eq_floor (q : ℚ) (h : 0 ≤ q) : pyTrunc q = ⌊q⌋ := by
  unfold pyTrunc
  rw [Rat.floor_def]
  exact Int.tdiv_eq_ediv (Rat.num_nonneg.mpr h) (Int.natCast_nonneg _)

/-- For a list of nonnegative integers, the truncated mean is the
integer quotient of the sum by the length. -/
theorem pyTrunc_pyMean_eq_sum_div (l : List Int)
    (hpos : ∀ x ∈ l, 0 ≤ x) : pyTrunc (pyMean l) = l.sum / (l.length : Int) := by
  have hsum : (0 : Int) ≤ l.sum := List.sum_nonneg hpos
  have hq : (0 : ℚ) ≤ pyMean l := by
    unfold pyMean
    apply div_nonneg
    · exact_mod_cast hsum
    · positivity
  rw [pyTrunc_eq_floor _ hq]
  unfold pyMean
  exact Rat.floor_intCast_div_natCast l.sum l.length

/-- C8 (amended): for every non-empty rent record list,
`monthly_rent_avg_10k` is the arithmetic mean of the monthly rents
truncated toward zero — for nonnegative rents, the floor quotient of
their sum by the count — not rounded to the nearest integer;
`jeonse_ratio_pct` is `null` in every output; and the empty list yields
all other numeric fields `0`. -/
theorem rent_summary_truncated_mean :
    (∀ items : List RentItem, items ≠ [] →
      (_build_rent_summary items).monthly_rent_avg_10k
          = pyTrunc (pyMean (items.map RentItem.monthly_rent_10k)) ∧
      ((∀ it ∈ items, 0 ≤ it.monthly_rent_10k) →
        (_build_rent_summary items).monthly_rent_avg_10k
          = (items.map RentItem.monthly_rent_10k).sum / (items.length : Int)) ∧
      (_build_rent_summary items).sample_count = items.length) ∧
    (∀ items : List RentItem, (_build_rent_summary items).jeonse_ratio_pct = none) ∧
    _build_rent_summary [] =
      { median_deposit_10k := 0, min_deposit_10k := 0, max_deposit_10k := 0,
        monthly_rent_avg_10k := 0, jeonse_ratio_pct := none, sample_count := 0 } := by
  refine ⟨?_, ?_, rfl⟩
  · intro items hne
    have hmapne : items.map RentItem.monthly_rent_10k ≠ [] := by
      simpa using hne
    have havg : (_build_rent_summary items).monthly_rent_avg_10k
        = pyTrunc (pyMean (items.map RentItem.monthly_rent_10k)) := by
      simp [_build_rent_summary, hne, hmapne]
    refine ⟨havg, ?_, ?_⟩
    · intro hpos
      rw [havg, pyTrunc_pyMean_eq_sum_div _ ?_, List.length_map]
      intro x hx
      rcases List.mem_map.mp hx with ⟨it, hit, rfl⟩
      exact hpos it hit
    · simp [_build_rent_summary, hne]
  · intro items
    unfold _build_rent_summary
    split_ifs <;> rfl

/-- Rent records whose monthly rents average to three halves. -/
def rentItemsHalf : List RentItem := [⟨1, 1⟩, ⟨1, 2⟩]

/-- C8 counterexample: on two records with monthly rents 1 and 2 the
mean is 3/2; the summary reports `monthly_rent_avg_10k = 1` (truncation
by Python `int(...)`), while rounding to the nearest integer would give
2. -/
theorem rent_avg_truncates_not_rounds :
    (_build_rent_summary rentItemsHalf).monthly_rent_avg_10k = 1 ∧
    pyMean (rentItemsHalf.map RentItem.monthly_rent_10k) = 3 / 2 ∧
    round ((3 : ℚ) / 2) = 2 ∧ (1 : Int) ≠ 2 := by
  have hmap : rentItemsHalf.map RentItem.monthly_rent_10k = [1, 2] := by decide
  have hmean : pyMean [1, 2] = 3 / 2 := by
    unfold pyMean
    norm_num
  have htr : pyTrunc (3 / 2 : ℚ) = 1 := by
    rw [pyTrunc_eq_floor _ (by norm_num)]
    norm_num
  have havg : (_build_rent_summary rentItemsHalf).monthly_rent_avg_10k
      = pyTrunc (pyMean (rentItemsHalf.map RentItem.monthly_rent_10k)) := by
    simp [_build_rent_summary, rentItemsHalf]
  refine ⟨?_, ?_, ?_, by decide⟩
  · rw [havg, hmap, hmean, htr]
  · rw [hmap]
    exact hmean
  · rw [round_eq]
    norm_num

/-- One-record list for the C8 witness. -/
def rentItemsW : List RentItem := [⟨2, 3⟩]

/-- C8 witness: concrete instantiation of the amended statement. -/
theorem rent_summary_truncated_mean_witness :
    rentItemsW ≠ [] ∧ (∀ it ∈ rentItemsW, 0 ≤ it.monthly_rent_10k) ∧
    (_build_rent_summary rentItemsW).monthly_rent_avg_10k
      = (rentItemsW.map RentItem.monthly_rent_10k).sum / (rentItemsW.length : Int) ∧
    (_build_rent_summary rentItemsW).jeonse_ratio_pct = none :=
  ⟨by decide, by decide,
    ((rent_summary_truncated_mean.1 rentItemsW (by decide)).2.1 (by decide)),
    rent_summary_truncated_mean.2.1 rentItemsW⟩

/-! ### C3: cancelled-record filtering -/

/-- Cancelled items contribute nothing to the apartment trade loop. -/
theorem apt_trades_loop_cancel_erase (items : List XmlItem) :
    _parse_apt_trades_loop items
      = _parse_apt_trades_loop (items.filter (fun it => !(_txt it "cdealType" == "O"))) := by
  induction items with
  | nil => rfl
  | cons it rest ih =>
    by_cases h : _txt it "cdealType" = "O"
    · simp [_parse_apt_trades_loop, List.filter_cons, h, ih]
    · cases hp : _parse_amount (_txt it "dealAmount") <;>
        simp [_parse_apt_trades_loop, List.filter_cons, h, hp, ih]

/-- Cancelled items contribute nothing to the officetel trade loop. -/
theorem officetel_trades_loop_cancel_erase (items : List XmlItem) :
    _parse_officetel_trades_loop items
      = _parse_officetel_trades_loop (items.filter (fun it => !(_txt it "cdealType" == "O"))) := by
  induction items with
  | nil => rfl
  | cons it rest ih =>
    by_cases h : _txt it "cdealType" = "O"
    · simp [_parse_officetel_trades_loop, List.filter_cons, h, ih]
    · cases hp : _parse_amount (_txt it "dealAmount") <;>
        simp [_parse_officetel_trades_loop, List.filter_cons, h, hp, ih]

/-- Cancelled items contribute nothing to the row-house trade loop. -/
theorem villa_trades_loop_cancel_erase (items : List XmlItem) :
    _parse_villa_trades_loop items
      = _parse_villa_trades_loop (items.filter (fun it => !(_txt it "cdealType" == "O"))) := by
  induction items with
  | nil => rfl
  | cons it rest ih =>
    by_cases h : _txt it "cdealType" = "O"
    · simp [_parse_villa_trades_loop, List.filter_cons, h, ih]
    · cases hp : _parse_amount (_txt it "dealAmount") <;>
        simp [_parse_villa_trades_loop, List.filter_cons, h, hp, ih]

/-- Cancelled items contribute nothing to the detached-house trade
loop. -/
theorem single_house_trades_loop_cancel_erase (items : List XmlItem) :
    _parse_single_house_trades_loop items
      = _parse_single_house_trades_loop
          (items.filter (fun it => !(_txt it "cdealType" == "O"))) := by
  induction items with
  | nil => rfl
  | cons it rest ih =>
    by_cases h : _txt it "cdealType" = "O"
    · simp [_parse_single_house_trades_loop, List.filter_cons, h, ih]
    · cases hp : _parse_amount (_txt it "dealAmount") <;>
        simp [_parse_single_house_trades_loop, List.filter_cons, h, hp, ih]

/-- Items cancelled under the lowercase tag contribute nothing to the
commercial trade loop. -/
theorem commercial_trade_loop_cancel_erase (items : List XmlItem) :
    _parse_commercial_trade_loop items
      = _parse_commercial_trade_loop
          (items.filter (fun it => !(_txt it "cdealtype" == "O"))) := by
  induction items with
  | nil => rfl
  | cons it rest ih =>
    by_cases h : _txt it "cdealtype" = "O"
    · simp [_parse_commercial_trade_loop, List.filter_cons, h, ih]
    · cases hp : _parse_amount (_txt it "dealAmount") <;>
        simp [_parse_commercial_trade_loop, List.filter_cons, h, hp, ih]

/-- Cancelled items contribute nothing to the apartment rent loop. -/
theorem apt_rent_loop_cancel_erase (items : List XmlItem) :
    _parse_apt_rent_loop items
      = _parse_apt_rent_loop (items.filter (fun it => !(_txt it "cdealType" == "O"))) := by
  induction items with
  | nil => rfl
  | cons it rest ih =>
    by_cases h : _txt it "cdealType" = "O"
    · simp [_parse_apt_rent_loop, List.filter_cons, h, ih]
    · cases hp : _parse_amount (_txt it "deposit") <;>
        simp [_parse_apt_rent_loop, List.filter_cons, h, hp, ih]

/-- A response whose only item is flagged cancelled, shaped for the
officetel rent parser. -/
def cancelledOffiRentDoc : XmlDoc :=
  ⟨some "000", [⟨[("cdealType", "O"), ("deposit", "40,000"), ("offiNm", "X")]⟩]⟩

/-- A response whose only item is flagged cancelled, shaped for the
detached-house rent parser. -/
def cancelledSingleRentDoc : XmlDoc :=
  ⟨some "000", [⟨[("cdealType", "O"), ("deposit", "40,000")]⟩]⟩

/-- A response whose only item is flagged cancelled, shaped for the
apartment rent parser. -/
def cancelledAptRentDoc : XmlDoc :=
  ⟨some "000", [⟨[("cdealType", "O"), ("deposit", "40,000"), ("aptNm", "X")]⟩]⟩

/-- C3 counterexample: the officetel rent parser performs no
cancelled-flag check — a single item carrying the sentinel
`cdealType = "O"` still yields one normalized record, and its name
appears in the output (the apartment rent parser, by contrast, drops
the identically flagged item). -/
theorem cancelled_item_appears_in_officetel_rent :
    (_parse_officetel_rent cancelledOffiRentDoc).1.length = 1 ∧
    ("unit_name", PyVal.str "X") ∈ (_parse_officetel_rent cancelledOffiRentDoc).1.headD [] ∧
    (_parse_apt_rent cancelledAptRentDoc).1.length = 0 := by
  refine ⟨by decide, by decide, by decide⟩

/-- C3 (amended): the four residential trade parsers and the apartment
rent parser drop items whose trimmed `cdealType` text is `"O"`, and the
commercial trade parser drops items whose lowercase-tag `cdealtype` text
is `"O"` — erasing such items from the input leaves each of those
parsers' output unchanged; the officetel rent and detached-house rent
parsers, however, apply no cancelled-flag check, and a
cancelled-flagged item yields a normalized record there. -/
theorem cancelled_filter_varies_by_family :
    (∀ doc : XmlDoc, _parse_apt_trades doc =
      _parse_apt_trades
        ⟨doc.resultCode, doc.items.filter (fun it => !(_txt it "cdealType" == "O"))⟩) ∧
    (∀ doc : XmlDoc, _parse_officetel_trades doc =
      _parse_officetel_trades
        ⟨doc.resultCode, doc.items.filter (fun it => !(_txt it "cdealType" == "O"))⟩) ∧
    (∀ doc : XmlDoc, _parse_villa_trades doc =
      _parse_villa_trades
        ⟨doc.resultCode, doc.items.filter (fun it => !(_txt it "cdealType" == "O"))⟩) ∧
    (∀ doc : XmlDoc, _parse_single_house_trades doc =
      _parse_single_house_trades
        ⟨doc.resultCode, doc.items.filter (fun it => !(_txt it "cdealType" == "O"))⟩) ∧
    (∀ doc : XmlDoc, _parse_commercial_trade doc =
      _parse_commercial_trade
        ⟨doc.resultCode, doc.items.filter (fun it => !(_txt it "cdealtype" == "O"))⟩) ∧
    (∀ doc : XmlDoc, _parse_apt_rent doc =
      _parse_apt_rent
        ⟨doc.resultCode, doc.items.filter (fun it => !(_txt it "cdealType" == "O"))⟩) ∧
    (_parse_officetel_rent cancelledOffiRentDoc).1.length = 1 ∧
    (_parse_single_house_rent cancelledSingleRentDoc).1.length = 1 := by
  refine ⟨?_, ?_, ?_, ?_, ?_, ?_, by decide, by decide⟩ <;> intro doc <;>
    by_cases hc : doc.resultCode.getD "" ≠ "000"
  · simp [_parse_apt_trades, hc]
  · simp [_parse_apt_trades, hc, apt_trades_loop_cancel_erase doc.items]
  · simp [_parse_officetel_trades, hc]
  · simp [_parse_officetel_trades, hc, officetel_trades_loop_cancel_erase doc.items]
  · simp [_parse_villa_trades, hc]
  · simp [_parse_villa_trades, hc, villa_trades_loop_cancel_erase doc.items]
  · simp [_parse_single_house_trades, hc]
  · simp [_parse_single_house_trades, hc, single_house_trades_loop_cancel_erase doc.items]
  · simp [_parse_commercial_trade, hc]
  · simp [_parse_commercial_trade, hc, commercial_trade_loop_cancel_erase doc.items]
  · simp [_parse_apt_rent, hc]
  · simp [_parse_apt_rent, hc, apt_rent_loop_cancel_erase doc.items]

/-! ### C9: cache-key invariance under parameter reordering

`sorted` canonicalizes the parameter items, so two parameter lists that
are permutations of each other produce the same key input.  The lemmas
below establish that the embedded Python tuple comparison is a strict
linear order, so that sorted permutations coincide. -/

/-- Lexicographic character-list comparison is irreflexive. -/
theorem strLtB_irrefl : ∀ l : List Char, strLtB l l = false := by
  intro l
  induction l with
  | nil => rfl
  | cons x xs ih => simp [strLtB, ih]

/-- Head-tail characterization of the lexicographic comparison. -/
theorem strLtB_cons_iff (a b : Char) (as bs : List Char) :
    strLtB (a :: as) (b :: bs) = true ↔ (a < b ∨ (a = b ∧ strLtB as bs = true)) := by
  simp only [strLtB]
  split_ifs with h1 h2
  · simp [h1]
  · simp [h1, h2]
  · simp [h1, h2]

/-- Lexicographic character-list comparison is asymmetric. -/
theorem strLtB_asymm : ∀ a b : List Char, strLtB a b = true → strLtB b a = false := by
  intro a
  induction a with
  | nil =>
    intro b hb
    cases b with
    | nil => simp [strLtB] at hb
    | cons y ys => rfl
  | cons x xs ih =>
    intro b hb
    cases b with
    | nil => simp [strLtB] at hb
    | cons y ys =>
      rw [Bool.eq_false_iff]
      intro hcon
      rw [strLtB_cons_iff] at hb hcon
      rcases hb with h1 | ⟨h1, h1'⟩ <;> rcases hcon with h2 | ⟨h2, h2'⟩
      · exact lt_asymm h1 h2
      · rw [h2] at h1
        exact lt_irrefl _ h1
      · rw [h1] at h2
        exact lt_irrefl _ h2
      · have := ih ys h1'
        rw [h2'] at this
        simp at this

/-- Lexicographic character-list comparison is trichotomous. -/
theorem strLtB_trichot : ∀ a b : List Char,
    strLtB a b = true ∨ a = b ∨ strLtB b a = true := by
  intro a
  induction a with
  | nil =>
    intro b
    cases b with
    | nil => exact Or.inr (Or.inl rfl)
    | cons y ys => exact Or.inl rfl
  | cons x xs ih =>
    intro b
    cases b with
    | nil => exact Or.inr (Or.inr rfl)
    | cons y ys =>
      rcases lt_trichotomy x y with hxy | hxy | hxy
      · exact Or.inl (by simp [strLtB, hxy])
      · subst hxy
        rcases ih ys with h | h | h
        · exact Or.inl (by simp [strLtB, h])
        · exact Or.inr (Or.inl (by rw [h]))
        · exact Or.inr (Or.inr (by simp [strLtB, h]))
      · exact Or.inr (Or.inr (by simp [strLtB, hxy]))

/-- Lexicographic character-list comparison is transitive. -/
theorem strLtB_trans : ∀ a b c : List Char,
    strLtB a b = true → strLtB b c = true → strLtB a c = true := by
  intro a
  induction a with
  | nil =>
    intro b c hab hbc
    cases c with
    | nil =>
      cases b with
      | nil => simp [strLtB] at hab
      | cons y ys => simp [strLtB] at hbc
    | cons z zs => rfl
  | cons x xs ih =>
    intro b c hab hbc
    cases b with
    | nil => simp [strLtB] at hab
    | cons y ys =>
      cases c with
      | nil => simp [strLtB] at hbc
      | cons z zs =>
        rw [strLtB_cons_iff] at hab hbc ⊢
        rcases hab with h1 | ⟨h1, h1'⟩ <;> rcases hbc with h2 | ⟨h2, h2'⟩
        · exact Or.inl (lt_trans h1 h2)
        · exact Or.inl (h2 ▸ h1)
        · exact Or.inl (h1 ▸ h2)
        · exact Or.inr ⟨h1.trans h2, ih ys zs h1' h2'⟩

/-- `pairLtB` viewed as a proposition. -/
theorem pairLtB_iff (x y : String × String) :
    pairLtB x y = true ↔
      (strLtB x.1.data y.1.data = true ∨ (x.1 = y.1 ∧ strLtB x.2.data y.2.data = true)) := by
  simp [pairLtB]

/-- Python tuple comparison on string pairs is asymmetric. -/
theorem pairLtB_asymm (x y : String × String) (h : pairLtB x y = true) :
    pairLtB y x = false := by
  rcases (pairLtB_iff x y).mp h with hk | ⟨hk, hv⟩
  · have h1 := strLtB_asymm _ _ hk
    have h2 : y.1 ≠ x.1 := by
      intro he
      rw [he] at hk
      simp [strLtB_irrefl] at hk
    simp [pairLtB, h1, h2]
  · have h1 : strLtB y.1.data x.1.data = false := by
      rw [hk, strLtB_irrefl]
    have h2 := strLtB_asymm _ _ hv
    by_cases he : y.1 = x.1
    · simp [pairLtB, he, h2, strLtB_irrefl]
    · simp [pairLtB, h1, he]

/-- Python tuple comparison on string pairs is trichotomous. -/
theorem pairLtB_trichot (x y : String × String) :
    pairLtB x y = true ∨ x = y ∨ pairLtB y x = true := by
  rcases strLtB_trichot x.1.data y.1.data with hk | hk | hk
  · exact Or.inl ((pairLtB_iff x y).mpr (Or.inl hk))
  · have hkeq : x.1 = y.1 := String.ext hk
    rcases strLtB_trichot x.2.data y.2.data with hv | hv | hv
    · exact Or.inl ((pairLtB_iff x y).mpr (Or.inr ⟨hkeq, hv⟩))
    · exact Or.inr (Or.inl (Prod.ext hkeq (String.ext hv)))
    · exact Or.inr (Or.inr ((pairLtB_iff y x).mpr (Or.inr ⟨hkeq.symm, hv⟩)))
  · exact Or.inr (Or.inr ((pairLtB_iff y x).mpr (Or.inl hk)))

/-- Python tuple comparison on string pairs is transitive. -/
theorem pairLtB_trans (x y z : String × String)
    (hxy : pairLtB x y = true) (hyz : pairLtB y z = true) : pairLtB x z = true := by
  rcases (pairLtB_iff x y).mp hxy with hk1 | ⟨hk1, hv1⟩ <;>
    rcases (pairLtB_iff y z).mp hyz with hk2 | ⟨hk2, hv2⟩
  · exact (pairLtB_iff x z).mpr (Or.inl (strLtB_trans _ _ _ hk1 hk2))
  · exact (pairLtB_iff x z).mpr (Or.inl (hk2 ▸ hk1))
  · exact (pairLtB_iff x z).mpr (Or.inl (hk1 ▸ hk2))
  · exact (pairLtB_iff x z).mpr (Or.inr ⟨hk1.trans hk2, strLtB_trans _ _ _ hv1 hv2⟩)

instance : IsTotal (String × String) paramLe := by
  constructor
  intro x y
  by_cases h : pairLtB y x = true
  · exact Or.inr (pairLtB_asymm y x h)
  · exact Or.inl (Bool.eq_false_iff.mpr h)

instance : IsTrans (String × String) paramLe := by
  constructor
  intro x y z hxy hyz
  unfold paramLe at hxy hyz ⊢
  by_contra hcon
  have h : pairLtB z x = true := by
    cases hzx : pairLtB z x with
    | false => exact absurd hzx hcon
    | true => rfl
  rcases pairLtB_trichot x y with h1 | h1 | h1
  · rw [pairLtB_trans _ _ _ h h1] at hyz
    simp at hyz
  · rw [← h1, h] at hyz
    simp at hyz
  · rw [h1] at hxy
    simp at hxy

instance : IsAntisymm (String × String) paramLe := by
  constructor
  intro x y hxy hyx
  unfold paramLe at hxy hyx
  rcases pairLtB_trichot x y with h1 | h1 | h1
  · rw [h1] at hyx
    simp at hyx
  · exact h1
  · rw [h1] at hxy
    simp at hxy

/-- Sorting is a permutation of the input. -/
theorem sortParams_perm (l : List (String × String)) : (sortParams l).Perm l :=
  List.perm_insertionSort paramLe l

/-- Permutation-equivalent parameter lists sort identically. -/
theorem sortParams_eq_of_perm (P1 P2 : List (String × String)) (h : P1.Perm P2) :
    sortParams P1 = sortParams P2 := by
  apply List.eq_of_perm_of_sorted (r := paramLe)
  · exact (sortParams_perm P1).trans (h.trans (sortParams_perm P2).symm)
  · exact List.sorted_insertionSort paramLe P1
  · exact List.sorted_insertionSort paramLe P2

/-- C9: the cache key is invariant under parameter insertion order — for
every url and every two parameter lists that are permutations of the
same key-value pairs, `generate_cache_key` produces the same key. -/
theorem cache_key_perm_invariant (url : String) (P1 P2 : List (String × String))
    (h : P1.Perm P2) :
    generate_cache_key url (some P1) = generate_cache_key url (some P2) := by
  have e1 : generate_cache_key url (some P1)
      = url ++ "?" ++ String.mk (urlencodePairs (sortParams P1)) := rfl
  have e2 : generate_cache_key url (some P2)
      = url ++ "?" ++ String.mk (urlencodePairs (sortParams P2)) := rfl
  rw [e1, e2, sortParams_eq_of_perm P1 P2 h]

/-- C9 witness: two concrete orderings of the same parameters yield the
same key. -/
theorem cache_key_perm_invariant_witness :
    ([("b", "2"), ("a", "1")] : List (String × String)).Perm [("a", "1"), ("b", "2")] ∧
    generate_cache_key "https://api.example.com" (some [("b", "2"), ("a", "1")]) =
      generate_cache_key "https://api.example.com" (some [("a", "1"), ("b", "2")]) :=
  ⟨by decide,
    cache_key_perm_invariant "https://api.example.com" _ _ (by decide)⟩

/-! ### C4: cache-key distinctness

The pre-hash key input is shown injective on parameterless requests, and
— for a fixed url — injective on parameter lists up to permutation,
because `urlencode` of the sorted items is an injective encoding.  The
with/without-parameters boundary, however, genuinely collides. -/

/-- Every Unicode scalar value is below `0x110000`. -/
theorem char_toNat_lt (c : Char) : c.toNat < 0x110000 := by
  rcases c.valid with h | ⟨h1, h2⟩
  · exact Nat.lt_trans h (by norm_num)
  · exact h2

/-- Characters with equal scalar values are equal. -/
theorem char_toNat_inj {c1 c2 : Char} (h : c1.toNat = c2.toNat) : c1 = c2 :=
  Char.ext (UInt32.ext h)

/-- The hexadecimal digit map is injective below 16. -/
theorem hexDigitChar_inj : ∀ {m n : Nat}, m < 16 → n < 16 →
    hexDigitChar m = hexDigitChar n → m = n := by
  intro m n hm hn h
  interval_cases m <;> interval_cases n <;> revert h <;> decide

/-- Hexadecimal digits are never the separators of the query string. -/
theorem hexDigitChar_ne_sep (n : Nat) : hexDigitChar n ≠ '=' ∧ hexDigitChar n ≠ '&' := by
  unfold hexDigitChar
  split <;> exact ⟨by decide, by decide⟩

/-- A percent escape at the head of a character stream determines its
byte and the remainder. -/
theorem pctByte_cancel {b1 b2 : Nat} (hb1 : b1 < 256) (hb2 : b2 < 256)
    {r1 r2 : List Char} (h : pctByte b1 ++ r1 = pctByte b2 ++ r2) : b1 = b2 ∧ r1 = r2 := by
  unfold pctByte at h
  simp only [List.cons_append, List.nil_append, List.cons.injEq, true_and] at h
  obtain ⟨h1, h2, h3⟩ := h
  have e1 := hexDigitChar_inj (by omega) (by omega) h1
  have e2 := hexDigitChar_inj (by omega) (by omega) h2
  exact ⟨by omega, h3⟩

/-- A UTF-8 byte sequence is never empty. -/
theorem utf8Bytes_ne_nil (n : Nat) : utf8Bytes n ≠ [] := by
  unfold utf8Bytes
  split_ifs <;> simp

/-- UTF-8 bytes of a scalar value are bytes. -/
theorem utf8Bytes_lt (n : Nat) (h : n < 0x110000) : ∀ b ∈ utf8Bytes n, b < 256 := by
  unfold utf8Bytes
  split_ifs with h1 h2 h3 <;> intro b hb <;> simp at hb
  · omega
  · rcases hb with rfl | rfl <;> omega
  · rcases hb with rfl | rfl | rfl <;> omega
  · rcases hb with rfl | rfl | rfl | rfl <;> omega

/-- The first UTF-8 byte determines the length of the sequence. -/
theorem utf8Bytes_length_eq (n1 n2 : Nat) (g1 : n1 < 0x110000) (g2 : n2 < 0x110000)
    (hh : (utf8Bytes n1).headD 0 = (utf8Bytes n2).headD 0) :
    (utf8Bytes n1).length = (utf8Bytes n2).length := by
  unfold utf8Bytes at hh ⊢
  split_ifs at hh ⊢
  all_goals simp only [List.headD_cons, List.length_cons, List.length_nil] at hh ⊢
  all_goals omega

/-- The UTF-8 encoding is injective on scalar values. -/
theorem utf8Bytes_inj {n1 n2 : Nat} (h1 : n1 < 0x110000) (h2 : n2 < 0x110000)
    (h : utf8Bytes n1 = utf8Bytes n2) : n1 = n2 := by
  unfold utf8Bytes at h
  split_ifs at h
  all_goals simp only [List.cons.injEq, and_true] at h
  all_goals omega

/-- Equal-length percent-escaped byte streams at the head of equal
character streams coincide. -/
theorem pctList_cancel : ∀ (bs1 bs2 : List Nat), bs1.length = bs2.length →
    (∀ b ∈ bs1, b < 256) → (∀ b ∈ bs2, b < 256) →
    ∀ {r1 r2 : List Char}, bs1.flatMap pctByte ++ r1 = bs2.flatMap pctByte ++ r2 →
    bs1 = bs2 ∧ r1 = r2 := by
  intro bs1
  induction bs1 with
  | nil =>
    intro bs2 hlen _ _ r1 r2 he
    cases bs2 with
    | nil => exact ⟨rfl, by simpa using he⟩
    | cons b bs => simp at hlen
  | cons b1 t1 ih =>
    intro bs2 hlen hb1 hb2 r1 r2 he
    cases bs2 with
    | nil => simp at hlen
    | cons b2 t2 =>
      simp only [List.flatMap_cons, List.append_assoc] at he
      obtain ⟨e1, he⟩ := pctByte_cancel (hb1 b1 (by simp)) (hb2 b2 (by simp)) he
      obtain ⟨et, hr⟩ := ih t2 (by simpa using hlen)
        (fun b hb => hb1 b (by simp [hb])) (fun b hb => hb2 b (by simp [hb])) he
      exact ⟨by rw [e1, et], hr⟩

/-- The percent-escaped UTF-8 encoding of a scalar value at the head of
a character stream determines the scalar and the remainder: the first
byte fixes the sequence length, and the bytes fix the scalar. -/
theorem pctUtf8_cancel {n1 n2 : Nat} (h1 : n1 < 0x110000) (h2 : n2 < 0x110000)
    {r1 r2 : List Char}
    (he : (utf8Bytes n1).flatMap pctByte ++ r1 = (utf8Bytes n2).flatMap pctByte ++ r2) :
    n1 = n2 ∧ r1 = r2 := by
  rcases hbs1 : utf8Bytes n1 with _ | ⟨b1, t1⟩
  · exact absurd hbs1 (utf8Bytes_ne_nil n1)
  rcases hbs2 : utf8Bytes n2 with _ | ⟨b2, t2⟩
  · exact absurd hbs2 (utf8Bytes_ne_nil n2)
  rw [hbs1, hbs2] at he
  have hb1 : ∀ b ∈ b1 :: t1, b < 256 := by
    rw [← hbs1]
    exact utf8Bytes_lt n1 h1
  have hb2 : ∀ b ∈ b2 :: t2, b < 256 := by
    rw [← hbs2]
    exact utf8Bytes_lt n2 h2
  have hhead : b1 = b2 := by
    have he' := he
    simp only [List.flatMap_cons, List.append_assoc] at he'
    exact (pctByte_cancel (hb1 b1 (by simp)) (hb2 b2 (by simp)) he').1
  have hlen : (b1 :: t1).length = (b2 :: t2).length := by
    have hl := utf8Bytes_length_eq n1 n2 h1 h2 (by rw [hbs1, hbs2]; simpa using hhead)
    rw [hbs1, hbs2] at hl
    exact hl
  obtain ⟨hbs, hr⟩ := pctList_cancel (b1 :: t1) (b2 :: t2) hlen hb1 hb2 he
  refine ⟨utf8Bytes_inj h1 h2 ?_, hr⟩
  rw [hbs1, hbs2]
  exact hbs

/-- A percent-escaped encoding starts with `%`. -/
theorem flat_pct_head (bs : List Nat) (h : bs ≠ []) :
    ∃ t, bs.flatMap pctByte = '%' :: t := by
  cases bs with
  | nil => exact absurd rfl h
  | cons b t => exact ⟨_, rfl⟩

/-- `quote_plus` of one character at the head of a character stream
determines the character and the remainder. -/
theorem quotePlusChar_cancel {c1 c2 : Char} {r1 r2 : List Char}
    (he : quotePlusChar c1 ++ r1 = quotePlusChar c2 ++ r2) : c1 = c2 ∧ r1 = r2 := by
  unfold quotePlusChar at he
  by_cases hsp1 : c1 = ' ' <;> by_cases hsp2 : c2 = ' '
  · rw [if_pos hsp1, if_pos hsp2] at he
    simp only [List.cons_append, List.nil_append, List.cons.injEq, true_and] at he
    exact ⟨hsp1.trans hsp2.symm, he⟩
  · by_cases hsf2 : alwaysSafeChar c2 = true
    · rw [if_pos hsp1, if_neg hsp2, if_pos hsf2] at he
      simp only [List.cons_append, List.nil_append, List.cons.injEq] at he
      rw [← he.1] at hsf2
      exact absurd hsf2 (by decide)
    · obtain ⟨t, ht⟩ := flat_pct_head (utf8Bytes c2.toNat) (utf8Bytes_ne_nil _)
      rw [if_pos hsp1, if_neg hsp2, if_neg hsf2, ht] at he
      simp only [List.cons_append, List.nil_append, List.cons.injEq] at he
      exact absurd he.1 (by decide)
  · by_cases hsf1 : alwaysSafeChar c1 = true
    · rw [if_neg hsp1, if_pos hsf1, if_pos hsp2] at he
      simp only [List.cons_append, List.nil_append, List.cons.injEq] at he
      rw [he.1] at hsf1
      exact absurd hsf1 (by decide)
    · obtain ⟨t, ht⟩ := flat_pct_head (utf8Bytes c1.toNat) (utf8Bytes_ne_nil _)
      rw [if_neg hsp1, if_neg hsf1, if_pos hsp2, ht] at he
      simp only [List.cons_append, List.nil_append, List.cons.injEq] at he
      exact absurd he.1 (by decide)
  · by_cases hsf1 : alwaysSafeChar c1 = true <;> by_cases hsf2 : alwaysSafeChar c2 = true
    · rw [if_neg hsp1, if_pos hsf1, if_neg hsp2, if_pos hsf2] at he
      simp only [List.cons_append, List.nil_append, List.cons.injEq] at he
      exact ⟨he.1, he.2⟩
    · obtain ⟨t, ht⟩ := flat_pct_head (utf8Bytes c2.toNat) (utf8Bytes_ne_nil _)
      rw [if_neg hsp1, if_pos hsf1, if_neg hsp2, if_neg hsf2, ht] at he
      simp only [List.cons_append, List.nil_append, List.cons.injEq] at he
      rw [he.1] at hsf1
      exact absurd hsf1 (by decide)
    · obtain ⟨t, ht⟩ := flat_pct_head (utf8Bytes c1.toNat) (utf8Bytes_ne_nil _)
      rw [if_neg hsp1, if_neg hsf1, if_neg hsp2, if_pos hsf2, ht] at he
      simp only [List.cons_append, List.nil_append, List.cons.injEq] at he
      rw [← he.1] at hsf2
      exact absurd hsf2 (by decide)
    · rw [if_neg hsp1, if_neg hsf1, if_neg hsp2, if_neg hsf2] at he
      obtain ⟨hn, hr⟩ := pctUtf8_cancel (char_toNat_lt c1) (char_toNat_lt c2) he
      exact ⟨char_toNat_inj hn, hr⟩

/-- `quote_plus` of one character is never empty. -/
theorem quotePlusChar_ne_nil (c : Char) : quotePlusChar c ≠ [] := by
  unfold quotePlusChar
  split_ifs with h1 h2
  · simp
  · simp
  · obtain ⟨t, ht⟩ := flat_pct_head (utf8Bytes c.toNat) (utf8Bytes_ne_nil _)
    rw [ht]
    simp

/-- `quote_plus` is injective on character lists. -/
theorem quotePlus_data_inj : ∀ l1 l2 : List Char,
    l1.flatMap quotePlusChar = l2.flatMap quotePlusChar → l1 = l2 := by
  intro l1
  induction l1 with
  | nil =>
    intro l2 h
    cases l2 with
    | nil => rfl
    | cons d ds =>
      exfalso
      simp only [List.flatMap_nil, List.flatMap_cons] at h
      rcases List.append_eq_nil.mp h.symm with ⟨h1, -⟩
      exact quotePlusChar_ne_nil d h1
  | cons c cs ih =>
    intro l2 h
    cases l2 with
    | nil =>
      exfalso
      simp only [List.flatMap_nil, List.flatMap_cons] at h
      rcases List.append_eq_nil.mp h with ⟨h1, -⟩
      exact quotePlusChar_ne_nil c h1
    | cons d ds =>
      simp only [List.flatMap_cons] at h
      obtain ⟨hc, ht⟩ := quotePlusChar_cancel h
      rw [hc, ih ds ht]

/-- `quote_plus` is injective on strings. -/
theorem quotePlus_inj {s1 s2 : String} (h : quotePlus s1 = quotePlus s2) : s1 = s2 :=
  String.ext (quotePlus_data_inj _ _ h)

/-- `quote_plus` output never contains the separators `=` or `&` (both
are percent-escaped). -/
theorem quotePlusChar_no_sep (c : Char) :
    ('=' ∉ quotePlusChar c) ∧ ('&' ∉ quotePlusChar c) := by
  unfold quotePlusChar
  split_ifs with h1 h2
  · exact ⟨by decide, by decide⟩
  · constructor <;> intro hm
    · simp only [List.mem_singleton] at hm
      rw [← hm] at h2
      exact absurd h2 (by decide)
    · simp only [List.mem_singleton] at hm
      rw [← hm] at h2
      exact absurd h2 (by decide)
  · constructor <;> intro hm
    · rcases List.mem_flatMap.mp hm with ⟨b, -, hmem⟩
      simp only [pctByte, List.mem_cons, List.mem_singleton] at hmem
      rcases hmem with h | h | h
      · exact absurd h (by decide)
      · exact (hexDigitChar_ne_sep _).1 h.symm
      · rcases h with h | h
        · exact (hexDigitChar_ne_sep _).1 h.symm
        · simp at h
    · rcases List.mem_flatMap.mp hm with ⟨b, -, hmem⟩
      simp only [pctByte, List.mem_cons, List.mem_singleton] at hmem
      rcases hmem with h | h | h
      · exact absurd h (by decide)
      · exact (hexDigitChar_ne_sep _).2 h.symm
      · rcases h with h | h
        · exact (hexDigitChar_ne_sep _).2 h.symm
        · simp at h

/-- Separator freedom lifted to `quotePlus` of a string. -/
theorem quotePlus_no_sep (s : String) :
    ('=' ∉ quotePlus s) ∧ ('&' ∉ quotePlus s) := by
  constructor <;> intro hm
  · rcases List.mem_flatMap.mp hm with ⟨c, -, hmem⟩
    exact (quotePlusChar_no_sep c).1 hmem
  · rcases List.mem_flatMap.mp hm with ⟨c, -, hmem⟩
    exact (quotePlusChar_no_sep c).2 hmem

/-- Splitting a character stream at the first occurrence of a separator
absent from both prefixes. -/
theorem sep_split {sep : Char} : ∀ {a1 a2 t1 t2 : List Char}, sep ∉ a1 → sep ∉ a2 →
    a1 ++ sep :: t1 = a2 ++ sep :: t2 → a1 = a2 ∧ t1 = t2 := by
  intro a1
  induction a1 with
  | nil =>
    intro a2 t1 t2 h1 h2 he
    cases a2 with
    | nil => simpa using he
    | cons x xs =>
      exfalso
      simp only [List.nil_append, List.cons_append, List.cons.injEq] at he
      exact h2 (he.1 ▸ List.mem_cons_self x xs)
  | cons x xs ih =>
    intro a2 t1 t2 h1 h2 he
    cases a2 with
    | nil =>
      exfalso
      simp only [List.nil_append, List.cons_append, List.cons.injEq] at he
      exact h1 (he.1.symm ▸ List.mem_cons_self x xs)
    | cons y ys =>
      simp only [List.cons_append, List.cons.injEq] at he
      obtain ⟨hxy, htail⟩ := he
      obtain ⟨ha, ht⟩ := ih (fun hm => h1 (List.mem_cons_of_mem x hm))
        (fun hm => h2 (List.mem_cons_of_mem y hm)) htail
      exact ⟨by rw [hxy, ha], ht⟩

/-- Splitting a character stream terminated either by its end or by an
`&` separator absent from both prefixes. -/
theorem end_or_amp_split : ∀ {a1 a2 t1 t2 : List Char}, '&' ∉ a1 → '&' ∉ a2 →
    (t1 = [] ∨ ∃ u, t1 = '&' :: u) → (t2 = [] ∨ ∃ u, t2 = '&' :: u) →
    a1 ++ t1 = a2 ++ t2 → a1 = a2 ∧ t1 = t2 := by
  intro a1
  induction a1 with
  | nil =>
    intro a2 t1 t2 h1 h2 ht1 ht2 he
    cases a2 with
    | nil => simpa using he
    | cons y ys =>
      exfalso
      simp only [List.nil_append, List.cons_append] at he
      rcases ht1 with rfl | ⟨u, rfl⟩
      · exact List.cons_ne_nil y (ys ++ t2) he.symm
      · simp only [List.cons.injEq] at he
        exact h2 (he.1.symm ▸ List.mem_cons_self y ys)
  | cons x xs ih =>
    intro a2 t1 t2 h1 h2 ht1 ht2 he
    cases a2 with
    | nil =>
      exfalso
      simp only [List.nil_append, List.cons_append] at he
      rcases ht2 with rfl | ⟨u, rfl⟩
      · exact List.cons_ne_nil x (xs ++ t1) he
      · simp only [List.cons.injEq] at he
        exact h1 (he.1 ▸ List.mem_cons_self x xs)
    | cons y ys =>
      simp only [List.cons_append, List.cons.injEq] at he
      obtain ⟨hxy, htail⟩ := he
      obtain ⟨ha, ht⟩ := ih (fun hm => h1 (List.mem_cons_of_mem x hm))
        (fun hm => h2 (List.mem_cons_of_mem y hm)) ht1 ht2 htail
      exact ⟨by rw [hxy, ha], ht⟩

/-- One `key=value` component at the head of a query string, terminated
by the end or by `&`, determines the pair and the remainder. -/
theorem encPair_cancel {p q : String × String} {r1 r2 : List Char}
    (hr1 : r1 = [] ∨ ∃ u, r1 = '&' :: u) (hr2 : r2 = [] ∨ ∃ u, r2 = '&' :: u)
    (he : encPair p ++ r1 = encPair q ++ r2) : p = q ∧ r1 = r2 := by
  unfold encPair at he
  simp only [List.append_assoc, List.cons_append] at he
  obtain ⟨hk, hv⟩ := sep_split (quotePlus_no_sep p.1).1 (quotePlus_no_sep q.1).1 he
  obtain ⟨hv', hr⟩ := end_or_amp_split (quotePlus_no_sep p.2).2 (quotePlus_no_sep q.2).2
    hr1 hr2 hv
  exact ⟨Prod.ext (quotePlus_inj hk) (quotePlus_inj hv'), hr⟩

/-- The encoding of a non-empty parameter list is non-empty. -/
theorem urlencodePairs_ne_nil (p : String × String) (rest : List (String × String)) :
    urlencodePairs (p :: rest) ≠ [] := by
  cases rest with
  | nil =>
    simp only [urlencodePairs, encPair]
    simp
  | cons q qs =>
    simp only [urlencodePairs, encPair]
    simp

/-- `urlencode` is injective on ordered parameter lists. -/
theorem urlencodePairs_inj : ∀ {L1 L2 : List (String × String)},
    urlencodePairs L1 = urlencodePairs L2 → L1 = L2 := by
  intro L1
  induction L1 with
  | nil =>
    intro L2 he
    cases L2 with
    | nil => rfl
    | cons q L2' => exact absurd he.symm (urlencodePairs_ne_nil q L2')
  | cons p L1' ih =>
    intro L2 he
    cases L2 with
    | nil => exact absurd he (urlencodePairs_ne_nil p L1')
    | cons q L2' =>
      cases L1' with
      | nil =>
        cases L2' with
        | nil =>
          simp only [urlencodePairs] at he
          have he' : encPair p ++ ([] : List Char) = encPair q ++ [] := by
            simpa using he
          obtain ⟨hpq, -⟩ := encPair_cancel (Or.inl rfl) (Or.inl rfl) he'
          rw [hpq]
        | cons q2 L2'' =>
          exfalso
          simp only [urlencodePairs] at he
          have he' : encPair p ++ ([] : List Char)
              = encPair q ++ ('&' :: urlencodePairs (q2 :: L2'')) := by
            simpa using he
          obtain ⟨-, hr⟩ := encPair_cancel (Or.inl rfl) (Or.inr ⟨_, rfl⟩) he'
          exact List.cons_ne_nil '&' _ hr.symm
      | cons p2 L1'' =>
        cases L2' with
        | nil =>
          exfalso
          simp only [urlencodePairs] at he
          have he' : encPair p ++ ('&' :: urlencodePairs (p2 :: L1''))
              = encPair q ++ ([] : List Char) := by
            simpa using he
          obtain ⟨-, hr⟩ := encPair_cancel (Or.inr ⟨_, rfl⟩) (Or.inl rfl) he'
          exact List.cons_ne_nil '&' _ hr
        | cons q2 L2'' =>
          simp only [urlencodePairs] at he
          obtain ⟨hpq, hr⟩ := encPair_cancel (Or.inr ⟨_, rfl⟩) (Or.inr ⟨_, rfl⟩) he
          simp only [List.cons.injEq, true_and] at hr
          rw [hpq, ih hr]

/-- For a fixed url, the key input determines the encoded query. -/
theorem key_input_inj_params {url : String} {e1 e2 : List Char}
    (h : url ++ "?" ++ String.mk e1 = url ++ "?" ++ String.mk e2) : e1 = e2 := by
  have hd : (url ++ "?").data ++ e1 = (url ++ "?").data ++ e2 := by
    have hdata := congrArg String.data h
    simpa [String.data_append] using hdata
  exact List.append_cancel_left hd

/-- Hexadecimal digits are never a question mark. -/
theorem hexDigitChar_ne_qmark (n : Nat) : hexDigitChar n ≠ '?' := by
  unfold hexDigitChar
  split <;> decide

/-- `quote_plus` output never contains a question mark (it is
percent-escaped). -/
theorem quotePlusChar_no_qmark (c : Char) : '?' ∉ quotePlusChar c := by
  unfold quotePlusChar
  split_ifs with h1 h2
  · decide
  · intro hm
    simp only [List.mem_singleton] at hm
    rw [← hm] at h2
    exact absurd h2 (by decide)
  · intro hm
    rcases List.mem_flatMap.mp hm with ⟨b, -, hmem⟩
    simp only [pctByte, List.mem_cons, List.mem_singleton] at hmem
    rcases hmem with h | h | h
    · exact absurd h (by decide)
    · exact hexDigitChar_ne_qmark _ h.symm
    · rcases h with h | h
      · exact hexDigitChar_ne_qmark _ h.symm
      · simp at h

/-- Question-mark freedom lifted to `quotePlus` of a string. -/
theorem quotePlus_no_qmark (s : String) : '?' ∉ quotePlus s := by
  intro hm
  rcases List.mem_flatMap.mp hm with ⟨c, -, hmem⟩
  exact quotePlusChar_no_qmark c hmem

/-- The encoded query never contains a question mark: its characters are
`quote_plus` output and the separators `=` and `&`. -/
theorem urlencodePairs_no_qmark : ∀ L : List (String × String),
    '?' ∉ urlencodePairs L := by
  intro L
  induction L with
  | nil => simp [urlencodePairs]
  | cons p rest ih =>
    cases rest with
    | nil =>
      intro hm
      simp only [urlencodePairs, encPair, List.mem_append, List.mem_cons] at hm
      rcases hm with h | h | h
      · exact quotePlus_no_qmark p.1 h
      · exact absurd h (by decide)
      · exact quotePlus_no_qmark p.2 h
    | cons q rest' =>
      intro hm
      simp only [urlencodePairs, encPair, List.mem_append, List.mem_cons] at hm
      rcases hm with (h | h | h) | h | h
      · exact quotePlus_no_qmark p.1 h
      · exact absurd h (by decide)
      · exact quotePlus_no_qmark p.2 h
      · exact absurd h (by decide)
      · exact ih (by simpa [urlencodePairs] using h)

/-- Splitting a character stream at the last occurrence of a separator
absent from both suffixes. -/
theorem last_sep_split {sep : Char} : ∀ {a1 a2 t1 t2 : List Char}, sep ∉ t1 → sep ∉ t2 →
    a1 ++ sep :: t1 = a2 ++ sep :: t2 → a1 = a2 ∧ t1 = t2 := by
  intro a1
  induction a1 with
  | nil =>
    intro a2 t1 t2 h1 h2 he
    cases a2 with
    | nil => simpa using he
    | cons y ys =>
      exfalso
      simp only [List.nil_append, List.cons_append, List.cons.injEq] at he
      exact h1 (he.2.symm ▸ List.mem_append_right ys (List.mem_cons_self sep t2))
  | cons x xs ih =>
    intro a2 t1 t2 h1 h2 he
    cases a2 with
    | nil =>
      exfalso
      simp only [List.nil_append, List.cons_append, List.cons.injEq] at he
      exact h2 (he.2 ▸ List.mem_append_right xs (List.mem_cons_self sep t1))
    | cons y ys =>
      simp only [List.cons_append, List.cons.injEq] at he
      obtain ⟨hxy, htail⟩ := he
      obtain ⟨ha, ht⟩ := ih h1 h2 htail
      exact ⟨by rw [hxy, ha], ht⟩

/-- C4 counterexample: a parameterless request whose url textually
contains the encoded query produces the same pre-hash key input as the
corresponding parameterised request, although the two `(url, params)`
inputs are distinct — distinctness fails deterministically across the
with/without-parameters boundary. -/
theorem url_query_collides_with_params :
    generate_cache_key "https://x?a=1" none
      = generate_cache_key "https://x" (some [("a", "1")]) ∧
    ("https://x?a=1", (none : Option (List (String × String))))
      ≠ ("https://x", some [("a", "1")]) := by
  exact ⟨by decide, by decide⟩

/-- C4 (amended): the pre-hash key input is injective within each
request form — distinct urls without parameters give distinct keys, and
two parameterised requests collide only when their urls are equal and
their parameter lists are permutations of the same key-value pairs
(`quote_plus` percent-escapes `?`, so the last `?` of a parameterised
key input marks the url boundary); in particular, distinct urls both
with parameters, or a fixed url with parameter maps differing in some
key or value, give distinct keys.  The only deterministic collisions
are across the with/without-parameters boundary: a parameterless
request collides with a parameterised one exactly when its url
textually equals the parameterised request's whole key input. -/
theorem cache_key_distinct_amended :
    (∀ u1 u2 : String, u1 ≠ u2 →
      generate_cache_key u1 none ≠ generate_cache_key u2 none) ∧
    (∀ (u1 u2 : String) (P1 P2 : List (String × String)),
      generate_cache_key u1 (some P1) = generate_cache_key u2 (some P2) →
      u1 = u2 ∧ P1.Perm P2) ∧
    (∀ (url : String) (P1 P2 : List (String × String)), ¬ P1.Perm P2 →
      generate_cache_key url (some P1) ≠ generate_cache_key url (some P2)) ∧
    (∀ (u1 u2 : String) (P1 P2 : List (String × String)), u1 ≠ u2 →
      generate_cache_key u1 (some P1) ≠ generate_cache_key u2 (some P2)) ∧
    (∀ (u1 u2 : String) (P : List (String × String)),
      generate_cache_key u1 none = generate_cache_key u2 (some P) ↔
        u1 = u2 ++ "?" ++ String.mk (urlencodePairs (sortParams P))) := by
  have hjoint : ∀ (u1 u2 : String) (P1 P2 : List (String × String)),
      generate_cache_key u1 (some P1) = generate_cache_key u2 (some P2) →
      u1 = u2 ∧ P1.Perm P2 := by
    intro u1 u2 P1 P2 he
    have he' : u1 ++ "?" ++ String.mk (urlencodePairs (sortParams P1))
        = u2 ++ "?" ++ String.mk (urlencodePairs (sortParams P2)) := he
    have hd : u1.data ++ '?' :: urlencodePairs (sortParams P1)
        = u2.data ++ '?' :: urlencodePairs (sortParams P2) := by
      have hdata := congrArg String.data he'
      simpa [String.data_append] using hdata
    obtain ⟨hu, hq⟩ := last_sep_split (urlencodePairs_no_qmark (sortParams P1))
      (urlencodePairs_no_qmark (sortParams P2)) hd
    have hsort : sortParams P1 = sortParams P2 := urlencodePairs_inj hq
    exact ⟨String.ext hu,
      (sortParams_perm P1).symm.trans (hsort ▸ sortParams_perm P2)⟩
  refine ⟨?_, hjoint, ?_, ?_, ?_⟩
  · intro u1 u2 h he
    exact h he
  · intro url P1 P2 hnp he
    exact hnp (hjoint url url P1 P2 he).2
  · intro u1 u2 P1 P2 hne he
    exact hne (hjoint u1 u2 P1 P2 he).1
  · intro u1 u2 P
    exact Iff.rfl

/-- C4 witness: concrete instances of every part — distinct urls on the
no-parameters side, a concrete collision forcing equal url and
permutation-equal parameters, value-level and url-level separations on
the with-parameters side. -/
theorem cache_key_distinct_amended_witness :
    (("https://a" : String) ≠ "https://b" ∧
      generate_cache_key "https://a" none ≠ generate_cache_key "https://b" none) ∧
    (generate_cache_key "https://u" (some [("a", "1"), ("b", "2")])
        = generate_cache_key "https://u" (some [("b", "2"), ("a", "1")]) ∧
      ("https://u" : String) = "https://u" ∧
      ([("a", "1"), ("b", "2")] : List (String × String)).Perm [("b", "2"), ("a", "1")]) ∧
    (¬ ([("a", "1")] : List (String × String)).Perm [("a", "2")] ∧
      generate_cache_key "https://u" (some [("a", "1")])
        ≠ generate_cache_key "https://u" (some [("a", "2")])) ∧
    (generate_cache_key "https://a" (some [("a", "1")])
        ≠ generate_cache_key "https://b" (some [("a", "1")])) :=
  ⟨⟨by decide, cache_key_distinct_amended.1 "https://a" "https://b" (by decide)⟩,
   ⟨by decide,
     (cache_key_distinct_amended.2.1 "https://u" "https://u"
       [("a", "1"), ("b", "2")] [("b", "2"), ("a", "1")] (by decide)).1,
     (cache_key_distinct_amended.2.1 "https://u" "https://u"
       [("a", "1"), ("b", "2")] [("b", "2"), ("a", "1")] (by decide)).2⟩,
   ⟨by decide,
     cache_key_distinct_amended.2.2.1 "https://u" [("a", "1")] [("a", "2")] (by decide)⟩,
   cache_key_distinct_amended.2.2.2.1 "https://a" "https://b" [("a", "1")] [("a", "1")]
     (by decide)⟩

end RealEstate
